import Mathlib

namespace Phylactery

/-!
Verification of the phylactery agentic execution runtime.

This file gives a shallow embedding, in Lean, of the security-relevant parts
of the repository:

* the canonical-JSON / hashing helpers (`src/app/core/brain/nodes.py`,
  `src/app/core/brain/config.py`),
* the `RiskGate`, `Interpreter` and `Router` graph nodes
  (`src/app/core/brain/nodes.py`),
* the `Tools` node with its idempotency cache (`src/app/core/brain/graph.py`,
  `src/app/core/tools/idempotency.py`),
* the HMAC `TokenManager` (`src/app/core/security/auth.py`),
* the layered `RiskEngine` policy (`backend/src/app/core/security/engine.py`),
* the server-side argument validator (`src/app/core/brain/config.py`),
* the hash-chained `AuditLogger` (`src/app/core/security/audit.py`),

together with theorems settling the stated properties of each component.

External collaborators (SHA-256 / MD5 / HMAC digests, the DLP scanner, the
tool runner, the LLM adapter, randomness, the filesystem content store) are
modelled as explicit function parameters, exactly at the call boundary where
the Python code invokes them.  Machine details of Python that the code relies
on (string `split`, `str.strip`, `os.path.normpath`, JSON serialisation,
`repr`, truthiness, `str(int)`) are translated into executable Lean
definitions below.
-/

/-! ## Python string primitives -/

/-- Python `str.split(sep)` for a one-character separator, on a list of
characters.  `"".split(c) = [""]`, and separators at either end produce empty
groups, exactly as in Python. -/
def splitCh (sep : Char) : List Char → List (List Char)
  | [] => [[]]
  | c :: cs =>
    match splitCh sep cs with
    | [] => if c = sep then [[], []] else [[c]]
    | g :: gs => if c = sep then [] :: g :: gs else (c :: g) :: gs

/-- Python `s.split(sep)` for a one-character separator. -/
def pySplit (s : String) (sep : Char) : List String :=
  (splitCh sep s.data).map String.mk

/-- Python `sep.join(parts)`. -/
def joinSep (sep : String) : List String → String
  | [] => ""
  | [x] => x
  | x :: xs => x ++ sep ++ joinSep sep xs

/-- Decimal digit character, for digits `0`–`9`. -/
def pyDigitChar : Nat → Char
  | 0 => '0' | 1 => '1' | 2 => '2' | 3 => '3' | 4 => '4'
  | 5 => '5' | 6 => '6' | 7 => '7' | 8 => '8' | _ => '9'

/-- The decimal digits of a natural number, most significant first
(the digit list of Python `str(n)` for `n ≥ 0`). -/
def pyNatDigits (n : Nat) : List Char :=
  if _h : n < 10 then [pyDigitChar n]
  else pyNatDigits (n / 10) ++ [pyDigitChar (n % 10)]
decreasing_by exact Nat.div_lt_self (by omega) (by omega)

/-- Python `str(n)` for a non-negative integer. -/
def pyStrOfNat (n : Nat) : String := String.mk (pyNatDigits n)

/-- Python `str(i)` for an integer. -/
def pyStrOfInt (i : Int) : String :=
  if i < 0 then "-" ++ pyStrOfNat i.natAbs else pyStrOfNat i.toNat

/-- Numeric value of a digit string (most significant digit first). -/
def digitsVal (cs : List Char) : Nat :=
  cs.foldl (fun a c => a * 10 + (c.toNat - 48)) 0

/-- Helper for `pyParseInt?`, working on the character list. -/
def pyIntOfData : List Char → Option Int
  | [] => none
  | c :: rest =>
    if c = '-' then
      if rest ≠ [] ∧ rest.all Char.isDigit then some (-(digitsVal rest : Int)) else none
    else if (c :: rest).all Char.isDigit then some ((digitsVal (c :: rest) : Int)) else none

/-- Python `int(s)` restricted to the shapes that occur in this code base:
an optional leading minus sign followed by one or more decimal digits
(`str(int(time.time()))` always has this shape).  Anything else fails. -/
def pyParseInt? (s : String) : Option Int :=
  pyIntOfData s.data

/-- Python's ASCII whitespace class (`\s` on ASCII input, and the characters
removed by `str.strip()`). -/
def pyWs (c : Char) : Bool :=
  c = ' ' ∨ c = '\t' ∨ c = '\n' ∨ c = '\r' ∨ c = '\x0b' ∨ c = '\x0c' 

/-- Python `str.strip()` (ASCII whitespace). -/
def pyStrip (s : String) : String :=
  String.mk (((s.data.dropWhile pyWs).reverse.dropWhile pyWs).reverse)

/-- Python substring test `needle in hay`. -/
def pyIn (needle hay : String) : Bool :=
  decide (needle.data <:+: hay.data)

/-! ## The JSON data model

Tool arguments, tool outputs and audit details are Python values produced by
`json` parsing: `None`, booleans, integers, strings, lists and dicts
(floats do not occur in the argument payloads this development reasons
about and are not modelled). -/

inductive JVal where
  | null
  | bool (b : Bool)
  | int (n : Int)
  | str (s : String)
  | arr (elems : List JVal)
  | obj (fields : List (String × JVal))
deriving Inhabited

/-- Python truthiness of a JSON value. -/
def truthy : JVal → Bool
  | .null => false
  | .bool b => b
  | .int n => n != 0
  | .str s => s != ""
  | .arr xs => !xs.isEmpty
  | .obj kvs => !kvs.isEmpty

/-- Python `a or b` (returns `a` when truthy, otherwise `b`). -/
def pyOr (a b : JVal) : JVal := if truthy a then a else b

/-- `args.get(k)`: `None` when the key is absent. -/
def jGet (args : List (String × JVal)) (k : String) : JVal :=
  (args.lookup k).getD .null

/-! ### JSON serialisation (`json.dumps`) -/

/-- Lower-case hexadecimal digit. -/
def hexDigitCh : Nat → Char
  | 10 => 'a' | 11 => 'b' | 12 => 'c' | 13 => 'd' | 14 => 'e' | 15 => 'f'
  | n => pyDigitChar n

/-- Four lower-case hex digits of `n < 0x10000`. -/
def hex4 (n : Nat) : List Char :=
  [hexDigitCh (n / 4096 % 16), hexDigitCh (n / 256 % 16),
   hexDigitCh (n / 16 % 16), hexDigitCh (n % 16)]

/-- `json.dumps` escaping of one character (default `ensure_ascii=True`:
everything outside `0x20`–`0x7e` becomes `\uXXXX`, with surrogate pairs
above the BMP). -/
def jsonEscapeChar (c : Char) : List Char :=
  if c = '"' then ['\\', '"']
  else if c = '\\' then ['\\', '\\']
  else if c = '\n' then ['\\', 'n']
  else if c = '\t' then ['\\', 't']
  else if c = '\r' then ['\\', 'r']
  else if c.toNat = 8 then ['\\', 'b']
  else if c.toNat = 12 then ['\\', 'f']
  else if c.toNat < 32 ∨ c.toNat > 126 then
    if c.toNat ≥ 65536 then
      let v := c.toNat - 65536
      '\\' :: 'u' :: hex4 (55296 + v / 1024) ++ '\\' :: 'u' :: hex4 (56320 + v % 1024)
    else
      '\\' :: 'u' :: hex4 c.toNat
  else [c]

/-- JSON string literal (with escaping). -/
def jsonQuote (s : String) : String :=
  "\"" ++ String.mk (s.data.map jsonEscapeChar).flatten ++ "\""

/-- Stable insertion into a key-sorted association list
(Python's `sort_keys=True` comparison is code-point order on the keys). -/
def insertByKey (p : String × JVal) : List (String × JVal) → List (String × JVal)
  | [] => [p]
  | q :: qs => if p.1 < q.1 then p :: q :: qs else q :: insertByKey p qs

/-- Sort an association list by key (dict keys are distinct, so stability
is irrelevant). -/
def sortByKey : List (String × JVal) → List (String × JVal)
  | [] => []
  | p :: ps => insertByKey p (sortByKey ps)

mutual
/-- Recursively sort every object of a JSON value by key; `json.dumps` with
`sort_keys=True` is serialisation after this normalisation. -/
def sortJ : JVal → JVal
  | .null => .null
  | .bool b => .bool b
  | .int n => .int n
  | .str s => .str s
  | .arr xs => .arr (sortJList xs)
  | .obj kvs => .obj (sortByKey (sortJFields kvs))

def sortJList : List JVal → List JVal
  | [] => []
  | v :: vs => sortJ v :: sortJList vs

def sortJFields : List (String × JVal) → List (String × JVal)
  | [] => []
  | (k, v) :: kvs => (k, sortJ v) :: sortJFields kvs
end

mutual
/-- `json.dumps` with item separator `item` and key separator `kv`
(keys in the order of the value; sorting is applied beforehand by
`pyDumps`). -/
def dumpsVal (item kv : String) : JVal → String
  | .null => "null"
  | .bool true => "true"
  | .bool false => "false"
  | .int n => pyStrOfInt n
  | .str s => jsonQuote s
  | .arr xs => "[" ++ dumpsArr item kv xs ++ "]"
  | .obj kvs => "\x7b" ++ dumpsObj item kv kvs ++ "\x7d"

def dumpsArr (item kv : String) : List JVal → String
  | [] => ""
  | [x] => dumpsVal item kv x
  | x :: xs => dumpsVal item kv x ++ item ++ dumpsArr item kv xs

def dumpsObj (item kv : String) : List (String × JVal) → String
  | [] => ""
  | [(k, v)] => jsonQuote k ++ kv ++ dumpsVal item kv v
  | (k, v) :: kvs => jsonQuote k ++ kv ++ dumpsVal item kv v ++ item ++ dumpsObj item kv kvs
end

/-- Python `json.dumps(v, sort_keys=sortKeys, separators=(item, kv))`. -/
def pyDumps (sortKeys : Bool) (item kv : String) (v : JVal) : String :=
  dumpsVal item kv (if sortKeys then sortJ v else v)

/-! ### Python `repr` / `str` of JSON values (used by `str(args)`). -/

/-- One character inside a Python string `repr` with quote character `q`. -/
def reprEscapeChar (q c : Char) : List Char :=
  if c = '\\' then ['\\', '\\']
  else if c = q then ['\\', q]
  else if c = '\n' then ['\\', 'n']
  else if c = '\r' then ['\\', 'r']
  else if c = '\t' then ['\\', 't']
  else if c.toNat < 32 ∨ c.toNat = 127 then
    ['\\', 'x', hexDigitCh (c.toNat / 16 % 16), hexDigitCh (c.toNat % 16)]
  else [c]

/-- Python `repr` of a string: single quotes, unless the string contains a
single quote and no double quote. -/
def pyReprStr (s : String) : String :=
  let q : Char := if s.data.contains '\'' ∧ ¬ s.data.contains '"' then '"' else '\''
  String.mk (q :: (s.data.map (reprEscapeChar q)).flatten ++ [q])

mutual
/-- Python `repr` of a JSON value (`repr` of dicts/lists as printed by
`str(args)` in the risk engine). -/
def reprVal : JVal → String
  | .null => "None"
  | .bool true => "True"
  | .bool false => "False"
  | .int n => pyStrOfInt n
  | .str s => pyReprStr s
  | .arr xs => "[" ++ reprArr xs ++ "]"
  | .obj kvs => "\x7b" ++ reprObj kvs ++ "\x7d"

def reprArr : List JVal → String
  | [] => ""
  | [x] => reprVal x
  | x :: xs => reprVal x ++ ", " ++ reprArr xs

def reprObj : List (String × JVal) → String
  | [] => ""
  | [(k, v)] => pyReprStr k ++ ": " ++ reprVal v
  | (k, v) :: kvs => pyReprStr k ++ ": " ++ reprVal v ++ ", " ++ reprObj kvs
end

/-- Python `str` of a JSON value (`str` on a string is the identity, on
anything else it agrees with `repr`). -/
def pyStr : JVal → String
  | .str s => s
  | v => reprVal v

/-! ## Core data model (`src/app/core/brain/schemas.py`) -/

/-- `ProposedTool`: the Executor's validated, canonicalised intent to call a
tool (`step_idx` / `created_at` timestamps are integers here). -/
structure ProposedTool where
  name : String
  args : List (String × JVal)
  canonical_args : String
  args_hash : String
  tool_call_id : String
  step_idx : Int
  created_at : Int

/-- `ToolResult`.  The Python code passes these around as dicts and some
producers omit keys (`pointer`, `summary`, `rehydration_allowed`,
`source_path`); an absent or `None` key is modelled as `none`. -/
structure ToolResult where
  status : String
  output : JVal
  evicted : Option Bool
  pointer : Option String
  size_chars : Option Nat
  rehydration_allowed : Option Bool
  summary : Option String
  source_path : Option String

/-- The node names of the execution graph (`END` is the terminal). -/
inductive NodeId where
  | Router | Planner | Supervisor | Executor | RiskGate | Tools
  | Interpreter | AwaitApproval | ApprovalHandler | Finalizer | ENDNODE
deriving DecidableEq, Repr

/-- A value stored under a key of a node's state-update dict. -/
inductive UpdVal where
  | vToolResult (r : ToolResult)
  | vProposed (t : Option ProposedTool)
  | vBool (b : Bool)
  | vStr (s : Option String)
  | vTime (t : Option Int)

/-- A LangGraph `Command`: the update dict (keys in insertion order) and the
next node. -/
structure Command where
  update : List (String × UpdVal)
  goto : NodeId

/-- The per-run `AgentState` fields used by the embedded nodes.  `messages`
holds the message contents (`.content` of each message). -/
structure AgentState where
  thread_id : String
  user_id : String
  intent : Option String
  messages : List JVal
  plan : List String
  current_step : Nat
  step_status : List (Nat × String)
  tries : List (Nat × Nat)
  proposed_tool : Option ProposedTool
  last_tool_result : Option ToolResult
  awaiting_user_input : Bool
  question : Option String
  awaiting_approval : Bool
  approval_id : Option String
  approval_hash : Option String
  approval_expires_at : Option Int

/-! ## Canonicalisation helpers (`nodes.py` / `config.py`) -/

/-- `canonicalize(args) = json.dumps(args, sort_keys=True, separators=(",", ":"))`. -/
def canonicalize (args : List (String × JVal)) : String :=
  pyDumps true "," ":" (.obj args)

/-- `make_tool_result_failed(msg)` from `nodes.py` (summary is `msg[:100]`). -/
def make_tool_result_failed (msg : String) : ToolResult :=
  { status := "failed"
    output := .str msg
    evicted := some false
    pointer := none
    size_chars := some 0
    rehydration_allowed := some true
    summary := some (msg.take 100)
    source_path := none }

/-! ## RiskGate node (`src/app/core/brain/nodes.py`, `risk_gate_node`)

`calculate_hash` is `hashlib.sha256(...).hexdigest()`, an external digest:
it is the parameter `sha`.  The risk engine used by this node
(`..security.risk_policy.RiskEngine`) is a collaborator whose
`evaluate_risk` returns an assessment with a `.decision` string and a
`.reason`; it is the parameter `riskDecision` (the integrity property below
holds for every such engine).  `os.urandom(4).hex()` is the parameter
`rand`, and `time.time()` the parameter `now`. -/

def risk_gate_node (sha : String → String)
    (riskDecision : String → List (String × JVal) → String × String)
    (rand : String) (now : Int) (st : AgentState) : Command :=
  match st.proposed_tool with
  | none =>
    { update := [("last_tool_result",
        .vToolResult (make_tool_result_failed "System Error: No tool proposed"))]
      goto := .Interpreter }
  | some tool =>
    let canonical := canonicalize tool.args
    let computed_hash := sha canonical
    if tool.canonical_args ≠ canonical then
      { update := [("last_tool_result",
          .vToolResult (make_tool_result_failed "Integrity Error: Canonical args mismatch"))]
        goto := .Interpreter }
    else if tool.args_hash ≠ computed_hash then
      { update := [("last_tool_result",
          .vToolResult (make_tool_result_failed "Integrity Error: Hash mismatch (Tampering detected)"))]
        goto := .Interpreter }
    else
      let risk_eval := riskDecision tool.name tool.args
      if risk_eval.1 = "BLOCKED" then
        { update := [("last_tool_result",
            .vToolResult (make_tool_result_failed ("Security Blocked: " ++ risk_eval.2)))]
          goto := .Interpreter }
      else if risk_eval.1 = "AUTH_REQUIRED" then
        { update := [("awaiting_approval", .vBool true),
                     ("approval_id", .vStr (some ("auth_" ++ rand))),
                     ("approval_hash", .vStr (some computed_hash)),
                     ("approval_expires_at", .vTime (some (now + 300)))]
          goto := .AwaitApproval }
      else
        { update := [], goto := .Tools }

/-- A default `AgentState` used to build concrete states in witnesses. -/
def emptyAgentState : AgentState :=
  { thread_id := "t1", user_id := "u1", intent := none, messages := [],
    plan := [], current_step := 0, step_status := [], tries := [],
    proposed_tool := none, last_tool_result := none,
    awaiting_user_input := false, question := none,
    awaiting_approval := false, approval_id := none, approval_hash := none,
    approval_expires_at := none }

/-- Concrete digest function used by witnesses. -/
def wSha1 : String → String := fun s => "h:" ++ s

/-- Concrete risk engine used by witnesses (always allows). -/
def wRisk1 : String → List (String × JVal) → String × String :=
  fun _ _ => ("ALLOW", "ok")

/-- Concrete well-formed proposal used by the C1 witness. -/
def wTool1 : ProposedTool :=
  { name := "read_file", args := [("path", .str "a.txt")],
    canonical_args := canonicalize [("path", .str "a.txt")],
    args_hash := wSha1 (canonicalize [("path", .str "a.txt")]),
    tool_call_id := "tc1", step_idx := 0, created_at := 0 }

/-- Concrete state carrying `wTool1`. -/
def wSt1 : AgentState := { emptyAgentState with proposed_tool := some wTool1 }

/-! ## TokenManager (`src/app/core/security/auth.py`)

`hmac.new(secret, msg, sha256).hexdigest()` is the external digest: parameter
`hmac : String → String → String` (secret, message ↦ hex digest).
`time.time()` is the explicit parameter `now` (integer seconds; the token
timestamp field is `str(int(time.time()))`).  The used-token dict is modelled
by its lookup function. -/

/-- The used-token store: `token → expiry timestamp` (`None` = absent). -/
structure TMState where
  used : String → Option Int

/-- Fresh manager: no token consumed yet. -/
def tmEmpty : TMState := ⟨fun _ => none⟩

/-- Dict assignment `self._used_tokens[token] = e`. -/
def tmInsert (token : String) (e : Int) (st : TMState) : TMState :=
  ⟨fun t => if t = token then some e else st.used t⟩

/-- `_cleanup_expired_tokens`: drop every token whose expiry is `< now`. -/
def tmCleanup (now : Int) (st : TMState) : TMState :=
  ⟨fun t => match st.used t with
    | some e => if e < now then none else some e
    | none => none⟩

/-- `TokenManager.sign_payload`: token `v1.<ts>.<nonce>.<sig>` where
`sig = hmac(secret, "<ts>:<nonce>:<payload>")`. -/
def sign_payload (hmac : String → String → String) (secret : String)
    (now : Int) (nonce : String) (payload : String) : String :=
  "v1." ++ pyStrOfInt now ++ "." ++ nonce ++ "." ++
    hmac secret (pyStrOfInt now ++ ":" ++ nonce ++ ":" ++ payload)

/-- `TokenManager.verify_signature`: split on `"."`, require four parts and
version `v1`, parse the timestamp, check expiry, then compare the HMAC. -/
def verify_signature (hmac : String → String → String) (secret : String)
    (st_now : Int) (token payload : String) (maxAge : Int) : Bool :=
  match pySplit token '.' with
  | [ver, ts, nonce, sig] =>
    if ver ≠ "v1" then false
    else
      match pyParseInt? ts with
      | none => false
      | some tsv =>
        if st_now - tsv > maxAge then false
        else sig == hmac secret (ts ++ ":" ++ nonce ++ ":" ++ payload)
  | _ => false

/-- `TokenManager.verify_and_consume`: verify the signature, reject replays,
then mark the token used (expiry `now + max_age`) and opportunistically clean
up expired entries.  Returns the result together with the new store. -/
def verify_and_consume (hmac : String → String → String) (secret : String)
    (st : TMState) (now : Int) (token payload : String) (maxAge : Int) :
    Bool × TMState :=
  if !(verify_signature hmac secret now token payload maxAge) then (false, st)
  else if (st.used token).isSome then (false, st)
  else (true, tmCleanup now (tmInsert token (now + maxAge) st))

/-- The timestamp embedded in a token, when the token is well-formed. -/
def tokenTs (token : String) : Option Int :=
  match pySplit token '.' with
  | [_, ts, _, _] => pyParseInt? ts
  | _ => none

/-- A single `verify_and_consume` call in a trace: its wall-clock time,
token, and payload. -/
structure TMCall where
  now : Int
  token : String
  payload : String

/-- Run a sequence of `verify_and_consume` calls (at the default
`max_age_seconds = 300`), threading the used-token store. -/
def runCalls (hmac : String → String → String) (secret : String)
    (st : TMState) : List TMCall → TMState
  | [] => st
  | c :: cs =>
    runCalls hmac secret
      (verify_and_consume hmac secret st c.now c.token c.payload 300).2 cs

/-- The call times are nondecreasing, starting from `t` and ending no later
than `t2` (wall-clock time is monotone). -/
def chronoFrom (t : Int) : List TMCall → Int → Prop
  | [], t2 => t ≤ t2
  | c :: cs, t2 => t ≤ c.now ∧ chronoFrom c.now cs t2

/-- Invariant after a token with embedded timestamp `tsv` has been consumed:
at current time `t`, either the token is still in the used set with expiry
at least `tsv + 300`, or its validity window has already closed. -/
def consumedInv (token : String) (tsv : Int) (st : TMState) (t : Int) : Prop :=
  (∃ e, st.used token = some e ∧ tsv + 300 ≤ e) ∨ tsv + 300 < t

/-! ## IdempotencyStore (`src/app/core/tools/idempotency.py`) and the
Tools node (`tools_node_impl` in `src/app/core/brain/graph.py`)

`hashlib.sha256(...).hexdigest()` is the parameter `sha`; the MCP tool
runner (`_mcp_runner.call`) is the parameter `runner`; `time.time()` is the
explicit parameter `now`.  The store's dict is modelled by its lookup
function.  The `ToolsOutcome.runnerCalled` flag instruments whether the
external runner was invoked. -/

/-- `make_idempotency_key(thread_id, step_idx, args_hash) =
sha256(f"{thread_id}:{step_idx}:{args_hash}")`. -/
def make_idempotency_key (sha : String → String) (thread_id : String)
    (step_idx : Int) (args_hash : String) : String :=
  sha (thread_id ++ ":" ++ pyStrOfInt step_idx ++ ":" ++ args_hash)

/-- One stored idempotency entry: `{"value": ..., "expires_at": ...}`. -/
structure IdemEntry where
  value : ToolResult
  expires_at : Int

/-- The idempotency store (`IdempotencyStore._store`). -/
structure IdemStore where
  entries : String → Option IdemEntry

/-- Empty store. -/
def idemEmpty : IdemStore := ⟨fun _ => none⟩

/-- `IdempotencyStore.get`: `None` when missing; an expired entry is deleted
and `None` returned; otherwise the cached value.  Returns the (possibly
changed) store as well. -/
def idemGet (st : IdemStore) (now : Int) (key : String) :
    Option ToolResult × IdemStore :=
  match st.entries key with
  | none => (none, st)
  | some d =>
    if d.expires_at < now then
      (none, ⟨fun k => if k = key then none else st.entries k⟩)
    else
      (some d.value, st)

/-- `IdempotencyStore.set(key, value, ttl)` (the Python default is
`ttl = 600`; the Tools node calls `set` without a ttl argument). -/
def idemSet (st : IdemStore) (now : Int) (key : String) (value : ToolResult)
    (ttl : Int) : IdemStore :=
  ⟨fun k => if k = key then some ⟨value, now + ttl⟩ else st.entries k⟩

/-- The tool runner's outcome: `{"ok": bool, "output": ..., "error": ...}`. -/
structure RunnerResult where
  ok : Bool
  output : JVal
  error : String

/-- Result of one Tools-node invocation: the `last_tool_result` update, the
new store, and whether the external runner was invoked. -/
structure ToolsOutcome where
  result : ToolResult
  store : IdemStore
  runnerCalled : Bool

/-- The two-key failure dict `{"status": "failed", "output": "No proposed_tool"}`
returned when no tool is proposed (absent keys are `none`). -/
def noProposedToolResult : ToolResult :=
  { status := "failed", output := .str "No proposed_tool", evicted := none,
    pointer := none, size_chars := none, rehydration_allowed := none,
    summary := none, source_path := none }

/-- `tools_node_impl`: look up the idempotency store under
`make_idempotency_key(thread_id, step_idx, args_hash)`; on a (non-expired)
hit return the cached result without calling the runner; on a miss call the
runner once, wrap the outcome, and cache it (default ttl 600 s).
(The stored values are non-empty dicts, so Python's `if cached:` truthiness
coincides with presence.) -/
def tools_node (sha : String → String)
    (runner : String → List (String × JVal) → RunnerResult)
    (store : IdemStore) (now : Int) (thread_id : String)
    (tool? : Option ProposedTool) : ToolsOutcome :=
  match tool? with
  | none => ⟨noProposedToolResult, store, false⟩
  | some tool =>
    let id_key := make_idempotency_key sha thread_id tool.step_idx tool.args_hash
    match idemGet store now id_key with
    | (some cached, store1) => ⟨cached, store1, false⟩
    | (none, store1) =>
      let r := runner tool.name tool.args
      let tool_result : ToolResult :=
        if r.ok then
          { status := "success", output := r.output, evicted := some false,
            pointer := none, size_chars := some (pyStr r.output).length,
            rehydration_allowed := none, summary := none, source_path := none }
        else
          { status := "failed", output := .str r.error, evicted := some false,
            pointer := none, size_chars := some 0,
            rehydration_allowed := none, summary := none, source_path := none }
      ⟨tool_result, idemSet store1 now id_key tool_result 600, true⟩

/-! ## Path normalisation (`posixpath`)

`os.path.normpath`, `os.path.isabs`, `os.path.join` and `os.path.abspath`
on POSIX, as used by the risk engine and the argument validator.  The
current working directory is an explicit parameter. -/

/-- `posixpath.normpath`. -/
def pyNormpath (p : String) : String :=
  if p = "" then "."
  else
    let slashes : Nat :=
      if p.startsWith "//" ∧ ¬ p.startsWith "///" then 2
      else if p.startsWith "/" then 1 else 0
    let comps := pySplit p '/'
    let newComps := comps.foldl (fun acc comp =>
      if comp = "" ∨ comp = "." then acc
      else if comp ≠ ".." ∨ (slashes = 0 ∧ acc = []) ∨
          (acc ≠ [] ∧ acc.getLast? = some "..") then acc ++ [comp]
      else if acc ≠ [] then acc.dropLast
      else acc) []
    let joined := joinSep "/" newComps
    let res := String.mk (List.replicate slashes '/') ++ joined
    if res = "" then "." else res

/-- `posixpath.isabs`. -/
def pyIsabs (p : String) : Bool := p.startsWith "/"

/-- `posixpath.join` for two components. -/
def pyJoin2 (a b : String) : String :=
  if b.startsWith "/" then b
  else if a = "" ∨ a.endsWith "/" then a ++ b
  else a ++ "/" ++ b

/-- `posixpath.abspath`, with the process working directory `cwd` explicit. -/
def pyAbspath (cwd p : String) : String :=
  pyNormpath (if pyIsabs p then p else pyJoin2 cwd p)

/-! ## RiskEngine (`src/backend/src/app/core/security/engine.py`)

The DLP scanner (`detect_secrets`-based `DLPProcessor`) is an external
collaborator: `scanSecrets` returns the secret findings of a content value
and `piiFindings` the PII findings reported by `sanitize_pii`.  The audit
calls inside `evaluate_risk` do not affect the returned assessment and are
modelled in the audit section.  `self.sandbox_root` (computed in `__init__`
as `os.path.abspath(sandbox_root or os.getcwd())`) is the parameter
`sandbox_root`. -/

/-- `RiskAssessment` (decision fields of the Python class). -/
structure RiskAssessment where
  level : String
  reason : String
  requires_auth : String
  override_response : Option String
  should_panic : Bool

def SENSITIVE_FILES : List String := [".env", "id_rsa", "credentials.json", "secrets.yaml"]

def HIGH_RISK_TOOLS : List String := ["run_command", "send_email", "delete_file"]

def CRITICAL_TOOLS : List String := ["deploy_production", "access_database_admin"]

def HONEY_FILES : List String := ["admin_backup.json", "prod_db_credentials.yaml", ".aws/credentials.bak"]

def HONEY_TOKENS : List String := ["sk-admin-canary-token-999", "ghp_fake_github_token_for_trap"]

/-- `RiskEngine._is_safe_path`: the absolute path must start with the
sandbox root. -/
def is_safe_path (sandbox_root cwd : String) (path : String) : Bool :=
  (pyAbspath cwd path).startsWith sandbox_root

/-- The filesystem tools gated by the engine's filesystem policy. -/
def isFsTool (tool_name : String) : Bool :=
  tool_name ∈ (["read_file", "write_file", "edit_file", "list_dir"] : List String)

/-- The write/edit tools subject to DLP content scanning. -/
def isWriteTool (tool_name : String) : Bool :=
  tool_name ∈ (["write_file", "edit_file"] : List String)

/-- `str(args.get("path") or args.get("TargetFile") or args.get("DirectoryPath")
or args.get("AbsolutePath") or "")`. -/
def fsPathArg (args : List (String × JVal)) : String :=
  pyStr (pyOr (jGet args "path") (pyOr (jGet args "TargetFile")
    (pyOr (jGet args "DirectoryPath") (pyOr (jGet args "AbsolutePath") (.str "")))))

/-- `args.get("content") or args.get("CodeContent") or args.get("ReplacementContent")`. -/
def writeContentArg (args : List (String × JVal)) : JVal :=
  pyOr (jGet args "content") (pyOr (jGet args "CodeContent") (jGet args "ReplacementContent"))

/-- The "LichVirus" active-countermeasure payload (verbatim). -/
def troll_payload : String :=
  "\n                \n                ☣️  LICHVIRUS SYSTEM DEFENSE  ☣️\n                \n                [CRITICAL SECURITY EVENT]\n                -------------------------\n                Compromise Detected: HONEYPOT_TRIGGER\n                Source IP: LOGGED\n                Counter-measures: ACTIVE\n                \n                ...Deleting system32 (simulation)...\n                "

/-- Priority-0 outcome: honeytoken detected. -/
def honeytoken_assessment (token : String) : RiskAssessment :=
  { level := "critical"
    reason := "🚨 INTRUSION ALERT: Honeytoken '" ++ token ++ "' used!"
    requires_auth := "blocked"
    override_response :=
      some " *** SECURITY ALERT *** \n Your IP has been logged. Counter-measures initiated."
    should_panic := true }

/-- Priority-1 outcome: CRITICAL-set tool. -/
def critical_assessment (tool_name : String) : RiskAssessment :=
  { level := "critical"
    reason := "Tool '" ++ tool_name ++ "' is classified as CRITICAL."
    requires_auth := "biometric", override_response := none, should_panic := false }

/-- Priority-2 outcome: honeyfile access. -/
def honeyfile_assessment (path : String) : RiskAssessment :=
  { level := "critical"
    reason := "🚨 INTRUSION ALERT: Honeyfile '" ++ path ++ "' accessed!"
    requires_auth := "blocked", override_response := some troll_payload
    should_panic := true }

/-- Priority-3 outcome: unauthenticated access outside the sandbox. -/
def sandbox_assessment (path : String) : RiskAssessment :=
  { level := "critical"
    reason := "SANDBOX VIOLATION: Access to '" ++ path ++ "' blocked (Unauthenticated)."
    requires_auth := "blocked", override_response := none, should_panic := false }

/-- Priority-4 outcome: sensitive file. -/
def sensitive_assessment (path : String) : RiskAssessment :=
  { level := "high"
    reason := "Access to sensitive file '" ++ path ++ "' detected."
    requires_auth := "strong", override_response := none, should_panic := false }

/-- Priority-5 outcome: secret found in write content (`n` findings). -/
def secret_assessment (n : Nat) : RiskAssessment :=
  { level := "critical"
    reason := "DLP: Secret detected in write content (" ++ pyStrOfNat n ++ " found)."
    requires_auth := "blocked", override_response := none, should_panic := false }

/-- Priority-6 outcome: PII in write content. -/
def pii_assessment : RiskAssessment :=
  { level := "medium", reason := "DLP: PII detected in write content."
    requires_auth := "simple", override_response := none, should_panic := false }

/-- Priority-7 outcome: HIGH_RISK-set tool. -/
def high_risk_assessment (tool_name : String) : RiskAssessment :=
  { level := "high", reason := "Tool '" ++ tool_name ++ "' is HIGH RISK."
    requires_auth := "strong", override_response := none, should_panic := false }

/-- Default outcome: routine action. -/
def low_risk_assessment : RiskAssessment :=
  { level := "low", reason := "Routine action.", requires_auth := "none"
    override_response := none, should_panic := false }

/-- The body of the filesystem-policy `if` of `RiskEngine._internal_evaluate`
(rules 2–6).  `none` means the body falls through without returning. -/
def fs_policy_eval (scanSecrets piiFindings : JVal → List String)
    (sandbox_root cwd : String) (tool_name : String)
    (args : List (String × JVal)) (is_authenticated : Bool) :
    Option RiskAssessment :=
  let path := fsPathArg args
  if HONEY_FILES.any (fun honey => pyIn honey path) then
    some (honeyfile_assessment path)
  else if ¬ is_authenticated ∧ ¬ is_safe_path sandbox_root cwd path then
    some (sandbox_assessment path)
  else if SENSITIVE_FILES.any (fun s => pyIn s path) then
    some (sensitive_assessment path)
  else if isWriteTool tool_name then
    let content := writeContentArg args
    if truthy content then
      if (scanSecrets content) ≠ [] then
        some (secret_assessment (scanSecrets content).length)
      else if (piiFindings content) ≠ [] then
        some pii_assessment
      else none
    else none
  else none

/-- `RiskEngine._internal_evaluate`. -/
def internal_evaluate (scanSecrets piiFindings : JVal → List String)
    (sandbox_root cwd : String) (tool_name : String)
    (args : List (String × JVal)) (is_authenticated : Bool) : RiskAssessment :=
  if tool_name ∈ CRITICAL_TOOLS then critical_assessment tool_name
  else if isFsTool tool_name then
    match fs_policy_eval scanSecrets piiFindings sandbox_root cwd tool_name
        args is_authenticated with
    | some a => a
    | none =>
      if tool_name ∈ HIGH_RISK_TOOLS then high_risk_assessment tool_name
      else low_risk_assessment
  else if tool_name ∈ HIGH_RISK_TOOLS then high_risk_assessment tool_name
  else low_risk_assessment

/-- `RiskEngine.evaluate_risk`: the priority-0 honeytoken scan over
`str(args)` (the dict `repr`), then `_internal_evaluate`. -/
def evaluate_risk (scanSecrets piiFindings : JVal → List String)
    (sandbox_root cwd : String) (tool_name : String)
    (args : List (String × JVal)) (is_authenticated : Bool) : RiskAssessment :=
  let args_str := reprVal (.obj args)
  match HONEY_TOKENS.find? (fun token => pyIn token args_str) with
  | some token => honeytoken_assessment token
  | none =>
    internal_evaluate scanSecrets piiFindings sandbox_root cwd tool_name args
      is_authenticated

/-- The decision class of an assessment, as consumed by the RiskGate:
`requires_auth = "blocked"` is BLOCKED, `"none"` is ALLOW, anything else
requires approval. -/
def riskDecisionClass (a : RiskAssessment) : String :=
  if a.requires_auth = "blocked" then "BLOCKED"
  else if a.requires_auth = "none" then "ALLOW"
  else "AUTH_REQUIRED"

/-- First-match-wins evaluation of a guarded rule list. -/
def firstMatch : List (Bool × RiskAssessment) → RiskAssessment → RiskAssessment
  | [], dflt => dflt
  | (c, a) :: rest, dflt => if c then a else firstMatch rest dflt

/-- The layered policy of the specification (priorities 0–7 in order; the
default, priority 8, is the `ALLOW` assessment passed to `firstMatch`). -/
def policyLayers (scanSecrets piiFindings : JVal → List String)
    (sandbox_root cwd : String) (tool_name : String)
    (args : List (String × JVal)) (is_authenticated : Bool) :
    List (Bool × RiskAssessment) :=
  let args_str := reprVal (.obj args)
  let path := fsPathArg args
  let content := writeContentArg args
  [ (HONEY_TOKENS.any (fun token => pyIn token args_str),
      match HONEY_TOKENS.find? (fun token => pyIn token args_str) with
      | some token => honeytoken_assessment token
      | none => low_risk_assessment),
    (tool_name ∈ CRITICAL_TOOLS, critical_assessment tool_name),
    (isFsTool tool_name && HONEY_FILES.any (fun honey => pyIn honey path),
      honeyfile_assessment path),
    (isFsTool tool_name && !is_authenticated &&
        !is_safe_path sandbox_root cwd path,
      sandbox_assessment path),
    (isFsTool tool_name && SENSITIVE_FILES.any (fun s => pyIn s path),
      sensitive_assessment path),
    (isFsTool tool_name && isWriteTool tool_name && truthy content &&
        !(scanSecrets content).isEmpty,
      secret_assessment (scanSecrets content).length),
    (isFsTool tool_name && isWriteTool tool_name && truthy content &&
        !(piiFindings content).isEmpty,
      pii_assessment),
    (tool_name ∈ HIGH_RISK_TOOLS, high_risk_assessment tool_name) ]

/-! ## Server-side argument validator (`validate_tool_args` in
`src/app/core/brain/config.py`)

The function is fallible Python: we embed it in `Except PyExn`.  Line 135 of
`config.py` calls `os.isabs(norm_path)` — the `os` module has no attribute
`isabs` (the predicate lives at `os.path.isabs`), so that attribute access
raises `AttributeError` whenever it is reached.  The email-format regex and
the two environment variables are parameters (`emailFmtOk`,
`sandboxPrefixEnv` = `PHYLACTERY_SANDBOX_PREFIX` with its default,
`emailDomainsEnv` = `PHYLACTERY_ALLOWED_EMAIL_DOMAINS`, empty when unset). -/

/-- Python exceptions raised by the embedded code. -/
inductive PyExn where
  | attributeError (msg : String)
  | typeError (msg : String)
deriving DecidableEq, Repr

/-- The attribute access `os.isabs`: `AttributeError`, since the `os` module
has no such attribute (the intended predicate is `os.path.isabs`). -/
def os_isabs (_p : String) : Except PyExn Bool :=
  .error (.attributeError "module os has no attribute isabs")

/-- Python `len` on a JSON value. -/
def pyLen : JVal → Except PyExn Nat
  | .str s => .ok s.length
  | .arr xs => .ok xs.length
  | .obj kvs => .ok kvs.length
  | _ => .error (.typeError "object has no len")

/-- The filesystem tools validated by `validate_tool_args`. -/
def validatorFsTools : List String :=
  ["read_file", "write_file", "stat", "glob", "grep", "edit_file", "ls"]

/-- `validate_tool_args(name, args)`: `(is_valid, error_message)`, or a
raised exception. -/
def validate_tool_args (emailFmtOk : String → Bool)
    (sandboxPrefixEnv emailDomainsEnv : String) (cwd : String)
    (name : String) (args : List (String × JVal)) :
    Except PyExn (Bool × String) := do
  -- Filesystem tool validation
  if name ∈ validatorFsTools then
    match (args.lookup "path").getD (.str "") with
    | .str path =>
      -- 1. Null byte injection prevention
      if pyIn "\x00" path then
        return (false, "Null byte injection blocked")
      -- 2. Normalize path and check for absolute/UNC paths
      let norm_path := pyNormpath path
      let ab ← os_isabs norm_path
      if ab ∨ norm_path.startsWith "\\\\" then
        return (false, "Absolute or UNC paths not allowed: " ++ path)
      -- 3. Traversal block (double check norm_path)
      if ".." ∈ pySplit norm_path '/' then
        return (false, "Path traversal blocked: ..")
      -- 4. Sandbox enforcement
      let sandbox_root := pyAbspath cwd sandboxPrefixEnv
      let target_abs := pyAbspath cwd norm_path
      if ¬ target_abs.startsWith sandbox_root then
        return (false, "Path outside sandbox. Must be within: " ++ sandboxPrefixEnv)
    | _ =>
      -- `"\x00" in path` on a non-string raises
      throw (.typeError "argument is not a string")
  -- Email tool validation
  if name = "send_email" then
    match (args.lookup "to").getD (.str "") with
    | .str toAddr =>
      if ¬ emailFmtOk toAddr then
        return (false, "Invalid email format: " ++ toAddr)
      -- Optional domain whitelist
      if emailDomainsEnv ≠ "" then
        let domains := (pySplit emailDomainsEnv ',').map pyStrip
        if ¬ domains.any (fun domain => toAddr.endsWith ("@" ++ domain)) then
          return (false, "Email domain not in whitelist: " ++ emailDomainsEnv)
      -- Subject/body length limits (DoS prevention)
      let subjectLen ← pyLen ((args.lookup "subject").getD (.str ""))
      if subjectLen > 500 then
        return (false, "Subject too long (max 500 chars)")
      let bodyLen ← pyLen ((args.lookup "body").getD (.str ""))
      if bodyLen > 50000 then
        return (false, "Body too long (max 50k chars)")
    | _ =>
      -- `re.match` on a non-string raises
      throw (.typeError "expected string or bytes-like object")
  -- All checks passed
  return (true, "")

/-! ## Interpreter node (`interpreter_node` in `src/app/core/brain/nodes.py`)

`save_eviction` writes to disk and returns the pointer path; it is the
parameter `saveEviction : content → run_id → path`.  `state.get("thread_id",
"unknown")` is the state's `thread_id` field. -/

/-- Deterministic stringification of the raw output: `json.dumps` (default
separators, insertion order) for dicts and lists, `str` otherwise. -/
def stringifyOutput : JVal → String
  | .obj kvs => pyDumps false ", " ": " (.obj kvs)
  | .arr xs => pyDumps false ", " ": " (.arr xs)
  | v => pyStr v

/-- The fallback dict `{"status": "failed", "output": "No result found"}`. -/
def interpreter_fallback_result : ToolResult :=
  { status := "failed", output := .str "No result found", evicted := none,
    pointer := none, size_chars := none, rehydration_allowed := none,
    summary := none, source_path := none }

/-- `interpreter_node`: eviction of oversized outputs (strictly greater than
10 000 chars), summary, strict rehydration policy, and clearing of
`proposed_tool`. -/
def interpreter_node (saveEviction : String → String → String)
    (st : AgentState) : Command :=
  let result := st.last_tool_result.getD interpreter_fallback_result
  let raw_str := stringifyOutput result.output
  let original_size := raw_str.length
  let result2 : ToolResult :=
    if original_size > 10000 then
      let pointer := saveEviction raw_str st.thread_id
      { result with
        evicted := some true
        pointer := some pointer
        size_chars := some original_size
        output := .str ("[EVICTED size=" ++ pyStrOfNat original_size ++
          " chars] Content at " ++ pointer)
        summary := some (raw_str.take 500 ++ "...(truncated)")
        rehydration_allowed := some (original_size ≤ 50000) }
    else
      { result with
        evicted := some false
        rehydration_allowed := some true
        size_chars := some original_size }
  { update := [("last_tool_result", .vToolResult result2),
               ("proposed_tool", .vProposed none)]
    goto := .Supervisor }

/-- The `last_tool_result` entry of an update dict. -/
def updToolResult (u : List (String × UpdVal)) : Option ToolResult :=
  match u.lookup "last_tool_result" with
  | some (.vToolResult r) => some r
  | _ => none

/-- A 10 001-character output, one past the eviction threshold. -/
def bigEvStr : String := String.mk (List.replicate 10001 'a')

/-- Concrete content store used by interpreter witnesses. -/
def wSaveEv : String → String → String :=
  fun _ _ => "/workspace/evictions/eviction_w.txt"

/-- An oversized successful tool result. -/
def wEvResult : ToolResult :=
  { status := "success", output := .str bigEvStr, evicted := none,
    pointer := none, size_chars := none, rehydration_allowed := none,
    summary := none, source_path := none }

/-- State carrying the oversized result. -/
def wEvSt : AgentState := { emptyAgentState with last_tool_result := some wEvResult }

/-- A small successful tool result. -/
def wSuccResult : ToolResult :=
  { status := "success", output := .str "ok", evicted := none,
    pointer := none, size_chars := none, rehydration_allowed := none,
    summary := none, source_path := none }

/-- State carrying the small successful result, at step 0. -/
def wSuccSt : AgentState :=
  { emptyAgentState with current_step := 0, last_tool_result := some wSuccResult }

/-! ## Router node and the approval grammar (`src/app/core/brain/nodes.py`)

The two compiled regexes are

  `RE_RECHAZAR = ^RECHAZAR\s+([A-Za-z0-9_-]{6,})\s*$`   (IGNORECASE)
  `RE_APROBAR  = ^APROBAR\s+([A-Za-z0-9_-]{6,})\s+([A-Za-z0-9._-]{10,})\s*$`

Both are anchored and every quantified class is disjoint from the class
that follows it (`\s` never overlaps the id/token classes), so greedy
maximal-munch matching without backtracking decides them; `reMatchRechazar`
and `reMatchAprobar` below are that deterministic reading.  `\s` and
`str.strip()` are modelled on ASCII whitespace. -/

/-- The id character class `[A-Za-z0-9_-]`. -/
def idChar (c : Char) : Bool := c.isAlpha ∨ c.isDigit ∨ c = '_' ∨ c = '-'

/-- The token character class `[A-Za-z0-9._-]`. -/
def tokChar (c : Char) : Bool := idChar c ∨ c = '.'

/-- Consume a keyword case-insensitively (ASCII `re.IGNORECASE`); returns
the rest of the input on success. -/
def dropCaseless : List Char → List Char → Option (List Char)
  | [], cs => some cs
  | _ :: _, [] => none
  | k :: ks, c :: cs =>
    if c.toLower = k.toLower then dropCaseless ks cs else none

/-- `RE_RECHAZAR.match(s)` as a Bool. -/
def reMatchRechazar (s : String) : Bool :=
  match dropCaseless "RECHAZAR".data s.data with
  | none => false
  | some r1 =>
    if (r1.takeWhile pyWs).isEmpty then false
    else if ((r1.dropWhile pyWs).takeWhile idChar).length < 6 then false
    else ((r1.dropWhile pyWs).dropWhile idChar).all pyWs

/-- `RE_APROBAR.match(s)` as a Bool. -/
def reMatchAprobar (s : String) : Bool :=
  match dropCaseless "APROBAR".data s.data with
  | none => false
  | some r1 =>
    if (r1.takeWhile pyWs).isEmpty then false
    else if ((r1.dropWhile pyWs).takeWhile idChar).length < 6 then false
    else if (((r1.dropWhile pyWs).dropWhile idChar).takeWhile pyWs).isEmpty then false
    else if ((((r1.dropWhile pyWs).dropWhile idChar).dropWhile pyWs).takeWhile tokChar).length < 10 then false
    else ((((r1.dropWhile pyWs).dropWhile idChar).dropWhile pyWs).dropWhile tokChar).all pyWs

/-- `router_node`: HITL reply check, info reply check, then intent
routing. -/
def router_node (st : AgentState) : Command :=
  if st.awaiting_approval then
    match st.messages.getLast?.getD .null with
    | .str last_msg =>
      let clean_msg := pyStrip last_msg
      if reMatchRechazar clean_msg ∨ reMatchAprobar clean_msg then
        ⟨[], .ApprovalHandler⟩
      else ⟨[], .Supervisor⟩
    | _ => ⟨[], .Supervisor⟩
  else if st.awaiting_user_input then ⟨[], .Supervisor⟩
  else
    match st.intent.getD "task" with
    | "conversation" => ⟨[], .Finalizer⟩
    | "task" => if st.plan = [] then ⟨[], .Planner⟩ else ⟨[], .Supervisor⟩
    | _ => ⟨[], .Supervisor⟩

/-- The user-visible approval grammar, stated declaratively (trimmed input;
keyword case-insensitive; id of at least 6 chars from `[A-Za-z0-9_-]`;
token of at least 10 chars from `[A-Za-z0-9._-]`; whitespace-separated). -/
def approvalGrammar (s : String) : Prop :=
  (∃ kw w1 idp w2 : List Char,
    (pyStrip s).data = kw ++ w1 ++ idp ++ w2 ∧
    kw.map Char.toLower = "rechazar".data ∧
    w1 ≠ [] ∧ (∀ c ∈ w1, pyWs c = true) ∧
    6 ≤ idp.length ∧ (∀ c ∈ idp, idChar c = true) ∧
    (∀ c ∈ w2, pyWs c = true)) ∨
  (∃ kw w1 idp w2 tokp w3 : List Char,
    (pyStrip s).data = kw ++ w1 ++ idp ++ w2 ++ tokp ++ w3 ∧
    kw.map Char.toLower = "aprobar".data ∧
    w1 ≠ [] ∧ (∀ c ∈ w1, pyWs c = true) ∧
    6 ≤ idp.length ∧ (∀ c ∈ idp, idChar c = true) ∧
    w2 ≠ [] ∧ (∀ c ∈ w2, pyWs c = true) ∧
    10 ≤ tokp.length ∧ (∀ c ∈ tokp, tokChar c = true) ∧
    (∀ c ∈ w3, pyWs c = true))

/-- Concrete awaiting-approval state used by the C8 witness. -/
def wApSt : AgentState :=
  { emptyAgentState with
    awaiting_approval := true
    messages := [.str "APROBAR abcdef abcde12345"] }

/-! ## AuditLogger (`src/app/core/security/audit.py`)

`hashlib.sha256(...).hexdigest()` is the parameter `sha`.  The JSONL file is
modelled as the list of appended records; `self._last_hash` is carried in
the state (a fresh logger over a missing/empty file starts at the genesis
hash).  Timestamps are modelled in whole seconds; the SQL mirror and the
degraded mode on write failure do not affect the chain and are not
modelled. -/

/-- One audit record (the keys of the JSONL dict). -/
structure AuditRecord where
  ts : Int
  event : String
  details : JVal
  decision : String
  risk : String
  prev_hash : String
  integrity_hash : String

/-- The genesis hash `"0" * 64`. -/
def genesisHash : String := String.mk (List.replicate 64 '0')

/-- The record as a JSON value, keys in the insertion order of the code. -/
def recordJVal (r : AuditRecord) : JVal :=
  .obj [("ts", .int r.ts), ("event", .str r.event), ("details", r.details),
        ("decision", .str r.decision), ("risk", .str r.risk),
        ("prev_hash", .str r.prev_hash),
        ("integrity_hash", .str r.integrity_hash)]

/-- `json.dumps(record, sort_keys=True)` (default separators). -/
def recordDump (r : AuditRecord) : String :=
  pyDumps true ", " ": " (recordJVal r)

/-- Logger state: the appended records and the in-memory `_last_hash`. -/
structure AuditState where
  log : List AuditRecord
  last_hash : String

/-- A fresh logger over a missing or empty audit file. -/
def auditInit : AuditState := ⟨[], genesisHash⟩

/-- The arguments of one `log_event` call. -/
structure AuditEvent where
  ts : Int
  event_type : String
  details : JVal
  decision : String
  risk_level : String

/-- `AuditLogger.log_event`: build the record with `integrity_hash = ""`,
hash its sorted-key dump, set the hash, append, advance `_last_hash`. -/
def log_event (sha : String → String) (st : AuditState) (e : AuditEvent) :
    AuditState :=
  let record0 : AuditRecord :=
    { ts := e.ts, event := e.event_type, details := e.details,
      decision := e.decision, risk := e.risk_level,
      prev_hash := st.last_hash, integrity_hash := "" }
  let new_hash := sha (recordDump record0)
  ⟨st.log ++ [{ record0 with integrity_hash := new_hash }], new_hash⟩

/-- Run a sequence of `log_event` calls. -/
def runAudit (sha : String → String) (st : AuditState) :
    List AuditEvent → AuditState
  | [] => st
  | e :: es => runAudit sha (log_event sha st e) es

/-- The hash-chain property from `prev`: each record's `prev_hash` is the
hash of its predecessor (or `prev` for the first), and its `integrity_hash`
is the digest of the record serialised with `integrity_hash = ""`. -/
def chainFrom (sha : String → String) : String → List AuditRecord → Prop
  | _, [] => True
  | prev, r :: rs =>
    r.prev_hash = prev ∧
    r.integrity_hash = sha (recordDump { r with integrity_hash := "" }) ∧
    chainFrom sha r.integrity_hash rs

/-- The hash of the last record of the list (or `prev` when empty). -/
def endHash (prev : String) : List AuditRecord → String
  | [] => prev
  | r :: rs => endHash r.integrity_hash rs


/-- **C1.**  For every `ProposedTool` processed by the RiskGate node, the gate
recomputes the canonical JSON of the proposal's args and its SHA-256 hash; if
either recomputed value differs from the proposal's stored `canonical_args` or
`args_hash`, the gate produces a failed `ToolResult` and routes to
Interpreter, so any proposal that reaches the Tools node satisfies
`canonical_args == canonicalize(args)` and `args_hash == sha256(canonical_args)`.
(The theorem quantifies over the digest function and the risk engine.) -/
theorem risk_gate_integrity (sha : String → String)
    (riskDecision : String → List (String × JVal) → String × String)
    (rand : String) (now : Int) (st : AgentState) (tool : ProposedTool)
    (h : st.proposed_tool = some tool) :
    ((tool.canonical_args ≠ canonicalize tool.args ∨
        tool.args_hash ≠ sha (canonicalize tool.args)) →
      (risk_gate_node sha riskDecision rand now st).goto = .Interpreter ∧
      ∃ msg, (risk_gate_node sha riskDecision rand now st).update =
        [("last_tool_result", .vToolResult (make_tool_result_failed msg))]) ∧
    ((risk_gate_node sha riskDecision rand now st).goto = .Tools →
      tool.canonical_args = canonicalize tool.args ∧
      tool.args_hash = sha (canonicalize tool.args)) := by
  by_cases hc : tool.canonical_args = canonicalize tool.args
  · by_cases hh : tool.args_hash = sha (canonicalize tool.args)
    · refine ⟨fun hmis => ?_, fun _ => ⟨hc, hh⟩⟩
      rcases hmis with hm | hm
      · exact absurd hc hm
      · exact absurd hh hm
    · constructor
      · intro _
        refine ⟨?_, "Integrity Error: Hash mismatch (Tampering detected)", ?_⟩ <;>
          simp [risk_gate_node, h, hc, hh]
      · intro hT
        simp [risk_gate_node, h, hc, hh] at hT
  · constructor
    · intro _
      refine ⟨?_, "Integrity Error: Canonical args mismatch", ?_⟩ <;>
        simp [risk_gate_node, h, hc]
    · intro hT
      simp [risk_gate_node, h, hc] at hT

/-- Witness for C1: a concrete state whose proposal carries the correctly
recomputed canonical args and hash, under a concrete digest function. -/
theorem risk_gate_integrity_witness :
    wSt1.proposed_tool = some wTool1 ∧
    (((wTool1.canonical_args ≠ canonicalize wTool1.args ∨
        wTool1.args_hash ≠ wSha1 (canonicalize wTool1.args)) →
      (risk_gate_node wSha1 wRisk1 "aa" 0 wSt1).goto = .Interpreter ∧
      ∃ msg, (risk_gate_node wSha1 wRisk1 "aa" 0 wSt1).update =
        [("last_tool_result", .vToolResult (make_tool_result_failed msg))]) ∧
    ((risk_gate_node wSha1 wRisk1 "aa" 0 wSt1).goto = .Tools →
      wTool1.canonical_args = canonicalize wTool1.args ∧
      wTool1.args_hash = wSha1 (canonicalize wTool1.args))) :=
  ⟨rfl, risk_gate_integrity wSha1 wRisk1 "aa" 0 wSt1 wTool1 rfl⟩

/-! ### Support lemmas: digits, parsing, splitting -/

theorem mk_data (s : String) : String.mk s.data = s := rfl

theorem pyDigitChar_toNat {m : Nat} (h : m < 10) :
    (pyDigitChar m).toNat = 48 + m := by
  interval_cases m <;> rfl

theorem pyDigitChar_isDigit {m : Nat} (h : m < 10) :
    (pyDigitChar m).isDigit = true := by
  interval_cases m <;> rfl

theorem pyNatDigits_ne_nil (n : Nat) : pyNatDigits n ≠ [] := by
  rw [pyNatDigits]
  split <;> simp

theorem pyNatDigits_all_digit (n : Nat) :
    (pyNatDigits n).all Char.isDigit = true := by
  induction n using Nat.strong_induction_on with
  | _ n ih =>
    rw [pyNatDigits]
    split
    · rename_i h
      simp [pyDigitChar_isDigit h]
    · rename_i h
      have hd : n / 10 < n := Nat.div_lt_self (by omega) (by omega)
      simp only [List.all_append, Bool.and_eq_true]
      refine ⟨ih _ hd, ?_⟩
      simp [pyDigitChar_isDigit (Nat.mod_lt _ (by omega))]

theorem digitsVal_append_one (cs : List Char) (c : Char) :
    digitsVal (cs ++ [c]) = digitsVal cs * 10 + (c.toNat - 48) := by
  simp [digitsVal, List.foldl_append]

theorem digitsVal_pyNatDigits (n : Nat) : digitsVal (pyNatDigits n) = n := by
  induction n using Nat.strong_induction_on with
  | _ n ih =>
    rw [pyNatDigits]
    split
    · rename_i h
      simp [digitsVal, pyDigitChar_toNat h]
    · rename_i h
      have hd : n / 10 < n := Nat.div_lt_self (by omega) (by omega)
      rw [digitsVal_append_one, ih _ hd,
        pyDigitChar_toNat (Nat.mod_lt _ (by omega))]
      omega

theorem pyNatDigits_not_minus (n : Nat) {c : Char} {rest : List Char}
    (h : pyNatDigits n = c :: rest) : c ≠ '-' := by
  intro hc
  have hall := pyNatDigits_all_digit n
  rw [h, hc, List.all_cons] at hall
  have hd : ('-').isDigit = false := by decide
  rw [hd] at hall
  simp at hall

theorem pyIntOfData_digits (cs : List Char) (hne : cs ≠ [])
    (hall : cs.all Char.isDigit = true) (hminus : cs.head? ≠ some '-') :
    pyIntOfData cs = some ((digitsVal cs : Int)) := by
  cases cs with
  | nil => exact absurd rfl hne
  | cons c rest =>
    have hc : ¬ c = '-' := by
      intro hc
      exact hminus (by simp [hc])
    rw [pyIntOfData, if_neg hc, if_pos hall]

theorem pyParseInt?_pyStrOfNat (n : Nat) :
    pyParseInt? (pyStrOfNat n) = some (n : Int) := by
  have hne := pyNatDigits_ne_nil n
  have hall := pyNatDigits_all_digit n
  have hdata : (pyStrOfNat n).data = pyNatDigits n := rfl
  unfold pyParseInt?
  rw [hdata]
  rw [pyIntOfData_digits _ hne hall ?hm, digitsVal_pyNatDigits]
  case hm =>
    cases hd : pyNatDigits n with
    | nil => exact absurd hd hne
    | cons c rest =>
      have := pyNatDigits_not_minus n hd
      simp [this]

theorem pyParseInt?_pyStrOfInt (i : Int) :
    pyParseInt? (pyStrOfInt i) = some i := by
  by_cases h : i < 0
  · have hne := pyNatDigits_ne_nil i.natAbs
    have hall := pyNatDigits_all_digit i.natAbs
    have hdata : (pyStrOfInt i).data = '-' :: pyNatDigits i.natAbs := by
      unfold pyStrOfInt
      rw [if_pos h]
      rfl
    unfold pyParseInt?
    rw [hdata, pyIntOfData, if_pos rfl, if_pos ⟨hne, hall⟩,
      digitsVal_pyNatDigits]
    congr 1
    omega
  · have hdata : pyStrOfInt i = pyStrOfNat i.toNat := by
      unfold pyStrOfInt
      rw [if_neg h]
    rw [hdata, pyParseInt?_pyStrOfNat]
    congr 1
    omega

theorem pyNatDigits_no_dot (n : Nat) : '.' ∉ pyNatDigits n := by
  intro hmem
  have hall := pyNatDigits_all_digit n
  rw [List.all_eq_true] at hall
  have := hall _ hmem
  simp [Char.isDigit] at this

theorem pyStrOfInt_no_dot (i : Int) : '.' ∉ (pyStrOfInt i).data := by
  by_cases h : i < 0
  · have hdata : (pyStrOfInt i).data = '-' :: pyNatDigits i.natAbs := by
      unfold pyStrOfInt
      rw [if_pos h]
      rfl
    rw [hdata]
    intro hmem
    rcases List.mem_cons.mp hmem with hc | hm
    · exact absurd hc (by decide)
    · exact pyNatDigits_no_dot _ hm
  · have hdata : (pyStrOfInt i).data = pyNatDigits i.toNat := by
      unfold pyStrOfInt
      rw [if_neg h]
      rfl
    rw [hdata]
    exact pyNatDigits_no_dot _

theorem splitCh_ne_nil (sep : Char) (cs : List Char) : splitCh sep cs ≠ [] := by
  cases cs with
  | nil => simp [splitCh]
  | cons c cs =>
    simp only [splitCh]
    split <;> split <;> simp

theorem splitCh_no_sep {sep : Char} {cs : List Char} (h : sep ∉ cs) :
    splitCh sep cs = [cs] := by
  induction cs with
  | nil => rfl
  | cons c cs ih =>
    have hc : ¬ c = sep := fun hc => h (hc ▸ List.mem_cons_self _ _)
    simp only [splitCh, ih (fun hm => h (List.mem_cons_of_mem _ hm))]
    simp [hc]

theorem splitCh_append_sep {sep : Char} {xs : List Char} (ys : List Char)
    (h : sep ∉ xs) : splitCh sep (xs ++ sep :: ys) = xs :: splitCh sep ys := by
  induction xs with
  | nil =>
    cases hy : splitCh sep ys with
    | nil => exact absurd hy (splitCh_ne_nil sep ys)
    | cons g gs =>
      simp only [List.nil_append, splitCh, hy]
      simp
  | cons x xs ih =>
    have hx : ¬ x = sep := fun hc => h (hc ▸ List.mem_cons_self _ _)
    rw [List.cons_append]
    simp only [splitCh, ih (fun hm => h (List.mem_cons_of_mem _ hm))]
    simp [hx]

theorem pySplit_sign_payload (hmac : String → String → String)
    (secret : String) (now : Int) (nonce payload : String)
    (hnd : '.' ∉ nonce.data)
    (hsd : '.' ∉ (hmac secret (pyStrOfInt now ++ ":" ++ nonce ++ ":" ++ payload)).data) :
    pySplit (sign_payload hmac secret now nonce payload) '.' =
      ["v1", pyStrOfInt now, nonce,
        hmac secret (pyStrOfInt now ++ ":" ++ nonce ++ ":" ++ payload)] := by
  have hdata :
      (sign_payload hmac secret now nonce payload).data =
        ['v', '1'] ++ '.' ::
          ((pyStrOfInt now).data ++ '.' ::
            (nonce.data ++ '.' ::
              (hmac secret (pyStrOfInt now ++ ":" ++ nonce ++ ":" ++ payload)).data)) := by
    unfold sign_payload
    simp [String.data_append,
      show ("v1." : String).data = ['v', '1', '.'] from rfl,
      show ("." : String).data = ['.'] from rfl]
  unfold pySplit
  rw [hdata,
    splitCh_append_sep _ (by decide),
    splitCh_append_sep _ (pyStrOfInt_no_dot now),
    splitCh_append_sep _ hnd,
    splitCh_no_sep hsd]
  simp [mk_data]

/-- **C10.**  Sign/verify round-trip: for every payload string, a token
freshly produced by `TokenManager.sign_payload(payload)` is accepted by the
first immediate call to `verify_and_consume(token, payload)` with the default
`max_age` — it returns true.  The hypotheses say that the HMAC hex digest and
the hex nonce contain no `"."` (hex digests never do) and that the token is
not already in the used set (the nonce is fresh). -/
theorem sign_then_verify (hmac : String → String → String) (secret : String)
    (st : TMState) (now : Int) (nonce payload : String)
    (hnd : '.' ∉ nonce.data)
    (hsd : '.' ∉ (hmac secret (pyStrOfInt now ++ ":" ++ nonce ++ ":" ++ payload)).data)
    (hfresh : st.used (sign_payload hmac secret now nonce payload) = none) :
    (verify_and_consume hmac secret st now
      (sign_payload hmac secret now nonce payload) payload 300).1 = true := by
  have hsig : verify_signature hmac secret now
      (sign_payload hmac secret now nonce payload) payload 300 = true := by
    unfold verify_signature
    rw [pySplit_sign_payload hmac secret now nonce payload hnd hsd]
    simp [pyParseInt?_pyStrOfInt]
  unfold verify_and_consume
  rw [hsig]
  simp [hfresh]

/-- Witness nonce / payload instantiation for C10. -/
theorem sign_then_verify_witness :
    ('.' ∉ ("aa" : String).data) ∧
    ('.' ∉ (((fun _ _ => "mac") : String → String → String) "s"
        (pyStrOfInt 5 ++ ":" ++ "aa" ++ ":" ++ "p")).data) ∧
    tmEmpty.used (sign_payload (fun _ _ => "mac") "s" 5 "aa" "p") = none ∧
    (verify_and_consume (fun _ _ => "mac") "s" tmEmpty 5
      (sign_payload (fun _ _ => "mac") "s" 5 "aa" "p") "p" 300).1 = true :=
  ⟨by decide, by decide, rfl,
    sign_then_verify (fun _ _ => "mac") "s" tmEmpty 5 "aa" "p"
      (by decide) (by decide) rfl⟩

theorem verify_signature_ts {hmac : String → String → String}
    {secret : String} {now : Int} {token payload : String} {maxAge : Int}
    (h : verify_signature hmac secret now token payload maxAge = true) :
    ∃ tsv, tokenTs token = some tsv ∧ now - tsv ≤ maxAge := by
  unfold verify_signature at h
  split at h
  · rename_i ver ts nonce sig heq
    rw [if_neg ?hv] at h
    case hv =>
      intro hne
      rw [if_pos hne] at h
      exact Bool.false_ne_true h
    · split at h
      · exact absurd h Bool.false_ne_true
      · rename_i tsv hts
        split at h
        · exact absurd h Bool.false_ne_true
        · rename_i hle
          refine ⟨tsv, ?_, by omega⟩
          unfold tokenTs
          rw [heq]
          exact hts
  · exact absurd h Bool.false_ne_true

theorem verify_and_consume_state (hmac : String → String → String)
    (secret : String) (st : TMState) (now : Int) (tok p : String)
    (maxAge : Int) :
    (verify_and_consume hmac secret st now tok p maxAge).2 = st ∨
    (st.used tok = none ∧
      (verify_and_consume hmac secret st now tok p maxAge).2 =
        tmCleanup now (tmInsert tok (now + maxAge) st)) := by
  unfold verify_and_consume
  split
  · exact Or.inl rfl
  · split
    · exact Or.inl rfl
    · rename_i hsome
      exact Or.inr ⟨Option.not_isSome_iff_eq_none.mp hsome, rfl⟩

theorem consumedInv_mono {token : String} {tsv : Int} {st : TMState}
    {u v : Int} (hinv : consumedInv token tsv st u) (huv : u ≤ v) :
    consumedInv token tsv st v := by
  rcases hinv with h | h
  · exact Or.inl h
  · exact Or.inr (by omega)

theorem consumedInv_step (hmac : String → String → String) (secret : String)
    {token : String} {tsv : Int} (st : TMState) (c : TMCall) {u : Int}
    (hinv : consumedInv token tsv st u) (hu : u ≤ c.now) :
    consumedInv token tsv
      (verify_and_consume hmac secret st c.now c.token c.payload 300).2
      c.now := by
  rcases verify_and_consume_state hmac secret st c.now c.token c.payload 300
    with heq | ⟨hnone, heq⟩
  · rw [heq]
    exact consumedInv_mono hinv hu
  · rw [heq]
    rcases hinv with ⟨e, hl, he⟩ | hlt
    · by_cases hte : token = c.token
      · rw [hte, hnone] at hl
        exact absurd hl (by simp)
      · by_cases hexp : e < c.now
        · right
          omega
        · left
          refine ⟨e, ?_, he⟩
          show (match (tmInsert c.token (c.now + 300) st).used token with
            | some e => if e < c.now then none else some e
            | none => none) = some e
          show (match (if token = c.token then some (c.now + 300)
              else st.used token) with
            | some e => if e < c.now then none else some e
            | none => none) = some e
          rw [if_neg hte, hl]
          simp [hexp]
    · exact Or.inr (by omega)

theorem runCalls_inv (hmac : String → String → String) (secret : String)
    {token : String} {tsv : Int} (cs : List TMCall) (st : TMState)
    (u t2 : Int) (hinv : consumedInv token tsv st u)
    (hch : chronoFrom u cs t2) :
    consumedInv token tsv (runCalls hmac secret st cs) t2 := by
  induction cs generalizing st u with
  | nil => exact consumedInv_mono hinv hch
  | cons c cs ih =>
    exact ih _ _ (consumedInv_step hmac secret st c hinv hch.1) hch.2

theorem consumedInv_reject (hmac : String → String → String) (secret : String)
    {token : String} {tsv : Int} (st : TMState) (t2 : Int) (p2 : String)
    (hts : tokenTs token = some tsv)
    (hinv : consumedInv token tsv st t2) :
    (verify_and_consume hmac secret st t2 token p2 300).1 = false := by
  unfold verify_and_consume
  by_cases hv : verify_signature hmac secret t2 token p2 300 = true
  · obtain ⟨tsv2, hts2, hle⟩ := verify_signature_ts hv
    rw [hts] at hts2
    obtain rfl : tsv = tsv2 := by injection hts2
    rcases hinv with ⟨e, hl, _⟩ | hlt
    · rw [hv]
      simp [hl]
    · omega
  · rw [Bool.not_eq_true] at hv
    rw [hv]
    simp

/-- **C2.**  `TokenManager.verify_and_consume` is monotone in consumption:
once `verify_and_consume(token, payload)` has returned true (at time `t0`,
for a token whose embedded timestamp is in the past, as every token produced
by `sign_payload` is), every subsequent call with the same token — any
payload, after any interleaved sequence of calls at nondecreasing wall-clock
times — returns false. -/
theorem verify_and_consume_monotone (hmac : String → String → String)
    (secret : String) (st st1 : TMState) (t0 : Int) (token payload : String)
    (tsv : Int) (hts : tokenTs token = some tsv) (hpast : tsv ≤ t0)
    (h1 : verify_and_consume hmac secret st t0 token payload 300 = (true, st1))
    (cs : List TMCall) (t2 : Int) (payload2 : String)
    (hch : chronoFrom t0 cs t2) :
    (verify_and_consume hmac secret (runCalls hmac secret st1 cs) t2 token
      payload2 300).1 = false := by
  have hst1 : st1 = tmCleanup t0 (tmInsert token (t0 + 300) st) := by
    unfold verify_and_consume at h1
    split at h1
    · simp at h1
    · split at h1
      · simp at h1
      · have h2 := congrArg Prod.snd h1
        exact h2.symm
  have hlook : st1.used token = some (t0 + 300) := by
    rw [hst1]
    show (match (tmInsert token (t0 + 300) st).used token with
      | some e => if e < t0 then none else some e
      | none => none) = some (t0 + 300)
    show (match (if token = token then some (t0 + 300) else st.used token) with
      | some e => if e < t0 then none else some e
      | none => none) = some (t0 + 300)
    rw [if_pos rfl]
    have hno : ¬ (t0 + 300 < t0) := by omega
    simp [hno]
  have hinv : consumedInv token tsv st1 t0 :=
    Or.inl ⟨t0 + 300, hlook, by omega⟩
  exact consumedInv_reject hmac secret _ t2 payload2 hts
    (runCalls_inv hmac secret cs st1 t0 t2 hinv hch)

/-- Witness for C2: a concrete consumed token is rejected on replay. -/
theorem verify_and_consume_monotone_witness :
    tokenTs "v1.10.aa.mac" = some 10 ∧ (10 : Int) ≤ 10 ∧
    verify_and_consume (fun _ _ => "mac") "s" tmEmpty 10 "v1.10.aa.mac" "p" 300 =
      (true,
        (verify_and_consume (fun _ _ => "mac") "s" tmEmpty 10 "v1.10.aa.mac"
          "p" 300).2) ∧
    chronoFrom 10 [] 11 ∧
    (verify_and_consume (fun _ _ => "mac") "s"
      (runCalls (fun _ _ => "mac") "s"
        (verify_and_consume (fun _ _ => "mac") "s" tmEmpty 10 "v1.10.aa.mac"
          "p" 300).2 [])
      11 "v1.10.aa.mac" "q" 300).1 = false :=
  ⟨rfl, by decide, rfl, by unfold chronoFrom; omega,
    verify_and_consume_monotone (fun _ _ => "mac") "s" tmEmpty _ 10
      "v1.10.aa.mac" "p" 10 rfl (by decide) rfl [] 11 "q"
      (by unfold chronoFrom; omega)⟩

/-- **C3.**  For every `(thread_id, step_idx, args_hash)` triple, the Tools
node first looks up the idempotency store under
`sha256("thread_id:step_idx:args_hash")`; on a non-expired cache hit it
returns the cached `ToolResult` without calling the tool runner, and on a
miss it calls the runner once and stores the result with TTL 600 seconds —
so for two invocations on the same triple no more than 600 seconds apart,
the external runner is invoked at most once. -/
theorem tools_node_at_most_once (sha : String → String)
    (runner : String → List (String × JVal) → RunnerResult)
    (store : IdemStore) (now1 now2 : Int) (thread : String)
    (tool tool2 : ProposedTool)
    (hstep : tool2.step_idx = tool.step_idx)
    (hhash : tool2.args_hash = tool.args_hash)
    (h12 : now1 ≤ now2) (httl : now2 ≤ now1 + 600) :
    (∀ c st1,
      idemGet store now1
          (make_idempotency_key sha thread tool.step_idx tool.args_hash) =
        (some c, st1) →
      (tools_node sha runner store now1 thread (some tool)).runnerCalled =
        false ∧
      (tools_node sha runner store now1 thread (some tool)).result = c) ∧
    (∀ st1,
      idemGet store now1
          (make_idempotency_key sha thread tool.step_idx tool.args_hash) =
        (none, st1) →
      (tools_node sha runner store now1 thread (some tool)).runnerCalled =
        true ∧
      (tools_node sha runner store now1 thread (some tool)).store.entries
          (make_idempotency_key sha thread tool.step_idx tool.args_hash) =
        some ⟨(tools_node sha runner store now1 thread (some tool)).result,
          now1 + 600⟩) ∧
    ¬((tools_node sha runner store now1 thread (some tool)).runnerCalled =
        true ∧
      (tools_node sha runner
        (tools_node sha runner store now1 thread (some tool)).store now2
        thread (some tool2)).runnerCalled = true) := by
  have hkey2 : make_idempotency_key sha thread tool2.step_idx tool2.args_hash
      = make_idempotency_key sha thread tool.step_idx tool.args_hash := by
    rw [hstep, hhash]
  refine ⟨?_, ?_, ?_⟩
  · intro c st1 hget
    constructor <;> simp [tools_node, hget]
  · intro st1 hget
    constructor
    · simp [tools_node, hget]
    · simp [tools_node, hget, idemSet]
  · rintro ⟨hc1, hc2⟩
    rcases hg : idemGet store now1
        (make_idempotency_key sha thread tool.step_idx tool.args_hash)
      with ⟨cv, st1⟩
    cases cv with
    | some c => simp [tools_node, hg] at hc1
    | none =>
      have hnotexp : ¬ (now1 + 600 < now2) := by omega
      set o1 := tools_node sha runner store now1 thread (some tool) with hO
      have ho1r : o1.store.entries
          (make_idempotency_key sha thread tool.step_idx tool.args_hash) =
          some ⟨o1.result, now1 + 600⟩ := by
        rw [hO]
        simp only [tools_node, hg]
        simp [idemSet]
      have hget2 : idemGet o1.store now2
          (make_idempotency_key sha thread tool.step_idx tool.args_hash) =
          (some o1.result, o1.store) := by
        simp [idemGet, ho1r, hnotexp]
      have hfalse : (tools_node sha runner o1.store now2 thread
          (some tool2)).runnerCalled = false := by
        simp only [tools_node, hkey2, hget2]
      rw [hfalse] at hc2
      exact Bool.false_ne_true hc2

/-- Witness for C3: a concrete empty store, two calls at times 0 and 10. -/
theorem tools_node_at_most_once_witness :
    wTool1.step_idx = wTool1.step_idx ∧ wTool1.args_hash = wTool1.args_hash ∧
    (0 : Int) ≤ 10 ∧ (10 : Int) ≤ 0 + 600 ∧
    ((∀ c st1,
      idemGet idemEmpty 0
          (make_idempotency_key (fun s => "k:" ++ s) "t" wTool1.step_idx
            wTool1.args_hash) = (some c, st1) →
      (tools_node (fun s => "k:" ++ s) (fun _ _ => ⟨true, .str "out", ""⟩)
        idemEmpty 0 "t" (some wTool1)).runnerCalled = false ∧
      (tools_node (fun s => "k:" ++ s) (fun _ _ => ⟨true, .str "out", ""⟩)
        idemEmpty 0 "t" (some wTool1)).result = c) ∧
    (∀ st1,
      idemGet idemEmpty 0
          (make_idempotency_key (fun s => "k:" ++ s) "t" wTool1.step_idx
            wTool1.args_hash) = (none, st1) →
      (tools_node (fun s => "k:" ++ s) (fun _ _ => ⟨true, .str "out", ""⟩)
        idemEmpty 0 "t" (some wTool1)).runnerCalled = true ∧
      (tools_node (fun s => "k:" ++ s) (fun _ _ => ⟨true, .str "out", ""⟩)
        idemEmpty 0 "t" (some wTool1)).store.entries
          (make_idempotency_key (fun s => "k:" ++ s) "t" wTool1.step_idx
            wTool1.args_hash) =
        some ⟨(tools_node (fun s => "k:" ++ s) (fun _ _ => ⟨true, .str "out", ""⟩)
          idemEmpty 0 "t" (some wTool1)).result, 0 + 600⟩) ∧
    ¬((tools_node (fun s => "k:" ++ s) (fun _ _ => ⟨true, .str "out", ""⟩)
        idemEmpty 0 "t" (some wTool1)).runnerCalled = true ∧
      (tools_node (fun s => "k:" ++ s) (fun _ _ => ⟨true, .str "out", ""⟩)
        (tools_node (fun s => "k:" ++ s) (fun _ _ => ⟨true, .str "out", ""⟩)
          idemEmpty 0 "t" (some wTool1)).store 10 "t"
        (some wTool1)).runnerCalled = true)) :=
  ⟨rfl, rfl, by decide, by decide,
    tools_node_at_most_once (fun s => "k:" ++ s)
      (fun _ _ => ⟨true, .str "out", ""⟩) idemEmpty 0 10 "t" wTool1 wTool1
      rfl rfl (by decide) (by decide)⟩

/-- **C4.**  Risk policy evaluation applies the layered rules in the spec's
priority order with first match winning: honeytoken (BLOCKED, panic, decoy),
then CRITICAL tool (AUTH_REQUIRED), then honeyfile (BLOCKED, panic, decoy),
then unauthenticated path outside sandbox (BLOCKED), then sensitive file
(AUTH_REQUIRED), then secret in write content (BLOCKED), then PII in write
content (AUTH_REQUIRED), then HIGH_RISK tool (AUTH_REQUIRED), else ALLOW.
The equality states that `evaluate_risk` is exactly first-match evaluation
of the ordered layer list; the remaining conjuncts classify each layer's
outcome. -/
theorem evaluate_risk_layered (scanSecrets piiFindings : JVal → List String)
    (sandbox_root cwd : String) (tool_name : String)
    (args : List (String × JVal)) (is_authenticated : Bool) :
    (evaluate_risk scanSecrets piiFindings sandbox_root cwd tool_name args
        is_authenticated =
      firstMatch
        (policyLayers scanSecrets piiFindings sandbox_root cwd tool_name args
          is_authenticated) low_risk_assessment) ∧
    (∀ t, riskDecisionClass (honeytoken_assessment t) = "BLOCKED" ∧
      (honeytoken_assessment t).should_panic = true ∧
      (honeytoken_assessment t).override_response ≠ none) ∧
    (∀ n, riskDecisionClass (critical_assessment n) = "AUTH_REQUIRED") ∧
    (∀ p, riskDecisionClass (honeyfile_assessment p) = "BLOCKED" ∧
      (honeyfile_assessment p).should_panic = true ∧
      (honeyfile_assessment p).override_response ≠ none) ∧
    (∀ p, riskDecisionClass (sandbox_assessment p) = "BLOCKED") ∧
    (∀ p, riskDecisionClass (sensitive_assessment p) = "AUTH_REQUIRED") ∧
    (∀ n, riskDecisionClass (secret_assessment n) = "BLOCKED") ∧
    riskDecisionClass pii_assessment = "AUTH_REQUIRED" ∧
    (∀ n, riskDecisionClass (high_risk_assessment n) = "AUTH_REQUIRED") ∧
    riskDecisionClass low_risk_assessment = "ALLOW" := by
  refine ⟨?_, fun t => ⟨rfl, rfl, by simp [honeytoken_assessment]⟩,
    fun n => rfl, fun p => ⟨rfl, rfl, by simp [honeyfile_assessment]⟩,
    fun p => rfl, fun p => rfl, fun n => rfl, rfl, fun n => rfl, rfl⟩
  cases hfind : HONEY_TOKENS.find? (fun token => pyIn token (reprVal (.obj args))) with
  | some token =>
    have hmem := List.mem_of_find?_eq_some hfind
    have hp := List.find?_some hfind
    have hany : HONEY_TOKENS.any (fun token => pyIn token (reprVal (.obj args))) = true :=
      List.any_eq_true.mpr ⟨token, hmem, hp⟩
    simp [evaluate_risk, policyLayers, firstMatch, hfind, hany]
  | none =>
    have hanyb : HONEY_TOKENS.any (fun token => pyIn token (reprVal (.obj args))) = false := by
      rw [List.any_eq_false]
      intro x hx
      have := List.find?_eq_none.mp hfind x hx
      simpa using this
    by_cases hcrit : tool_name ∈ CRITICAL_TOOLS
    · simp [evaluate_risk, internal_evaluate, policyLayers, firstMatch, hfind,
        hanyb, hcrit]
    · by_cases hfs : isFsTool tool_name = true
      · by_cases hhoney :
            HONEY_FILES.any (fun honey => pyIn honey (fsPathArg args)) = true
        · simp [evaluate_risk, internal_evaluate, fs_policy_eval, policyLayers,
            firstMatch, hfind, hanyb, hcrit, hfs, hhoney]
        · rw [Bool.not_eq_true] at hhoney
          by_cases hsand : (!is_authenticated &&
              !is_safe_path sandbox_root cwd (fsPathArg args)) = true
          · have h1x : is_authenticated = false := by
              revert hsand
              cases is_authenticated <;> simp
            have h2x : is_safe_path sandbox_root cwd (fsPathArg args) = false := by
              revert hsand
              cases is_safe_path sandbox_root cwd (fsPathArg args) <;> simp
            simp [evaluate_risk, internal_evaluate, fs_policy_eval,
              policyLayers, firstMatch, hfind, hanyb, hcrit, hfs, hhoney,
              h1x, h2x]
          · rw [Bool.not_eq_true] at hsand
            have hsgP : ¬(is_authenticated = false ∧
                is_safe_path sandbox_root cwd (fsPathArg args) = false) := by
              rintro ⟨h1, h2⟩
              rw [h1, h2] at hsand
              simp at hsand
            by_cases hsens :
                SENSITIVE_FILES.any (fun s => pyIn s (fsPathArg args)) = true
            · simp [evaluate_risk, internal_evaluate, fs_policy_eval,
                policyLayers, firstMatch, hfind, hanyb, hcrit, hfs, hhoney,
                hsand, hsgP, hsens]
            · rw [Bool.not_eq_true] at hsens
              by_cases hwrite : isWriteTool tool_name = true
              · by_cases htr : truthy (writeContentArg args) = true
                · by_cases hsec : scanSecrets (writeContentArg args) = []
                  · by_cases hpii : piiFindings (writeContentArg args) = []
                    · by_cases hhigh : tool_name ∈ HIGH_RISK_TOOLS <;>
                        simp [evaluate_risk, internal_evaluate, fs_policy_eval,
                          policyLayers, firstMatch, hfind, hanyb, hcrit, hfs,
                          hhoney, hsand, hsgP, hsens, hwrite, htr, hsec, hpii,
                          hhigh]
                    · simp [evaluate_risk, internal_evaluate, fs_policy_eval,
                        policyLayers, firstMatch, hfind, hanyb, hcrit, hfs,
                        hhoney, hsand, hsgP, hsens, hwrite, htr, hsec, hpii]
                  · simp [evaluate_risk, internal_evaluate, fs_policy_eval,
                      policyLayers, firstMatch, hfind, hanyb, hcrit, hfs,
                      hhoney, hsand, hsgP, hsens, hwrite, htr, hsec]
                · rw [Bool.not_eq_true] at htr
                  by_cases hhigh : tool_name ∈ HIGH_RISK_TOOLS <;>
                    simp [evaluate_risk, internal_evaluate, fs_policy_eval,
                      policyLayers, firstMatch, hfind, hanyb, hcrit, hfs,
                      hhoney, hsand, hsgP, hsens, hwrite, htr, hhigh]
              · rw [Bool.not_eq_true] at hwrite
                by_cases hhigh : tool_name ∈ HIGH_RISK_TOOLS <;>
                  simp [evaluate_risk, internal_evaluate, fs_policy_eval,
                    policyLayers, firstMatch, hfind, hanyb, hcrit, hfs,
                    hhoney, hsand, hsgP, hsens, hwrite, hhigh]
      · rw [Bool.not_eq_true] at hfs
        by_cases hhigh : tool_name ∈ HIGH_RISK_TOOLS <;>
          simp [evaluate_risk, internal_evaluate, policyLayers, firstMatch,
            hfind, hanyb, hcrit, hfs, hhigh]

/-- **C5** (code-bug evidence).  The claim says the validator returns
invalid (`is_valid = false` plus a message) for absolute paths, UNC paths
and `..` segments rather than raising.  In the code, every filesystem-tool
path that passes the null-byte check reaches `os.isabs(norm_path)`
(`config.py` line 135), which raises `AttributeError` because the `os`
module has no attribute `isabs`; only the null-byte rejection behaves as
claimed. -/
theorem validate_tool_args_isabs_bug :
    validate_tool_args (fun _ => true) "phylactery-app/" "" "/cwd" "read_file"
        [("path", .str "/etc/passwd")] =
      .error (.attributeError "module os has no attribute isabs") ∧
    validate_tool_args (fun _ => true) "phylactery-app/" "" "/cwd" "read_file"
        [("path", .str "a\x00b")] =
      .ok (false, "Null byte injection blocked") ∧
    validate_tool_args (fun _ => true) "phylactery-app/" "" "/cwd" "read_file"
        [("path", .str "../secret")] =
      .error (.attributeError "module os has no attribute isabs") :=
  ⟨rfl, rfl, rfl⟩

/-- **C6** (amended).  The Interpreter evicts by a strict threshold: when the
stringified output length exceeds 10 000 characters it sets `evicted = true`,
sets the pointer to the stored content, replaces `output` with the bounded
reference string, sets `summary` to the first 500 characters followed by the
literal marker `"...(truncated)"`, and sets `rehydration_allowed` exactly
when the original length is at most 50 000; a result of length at most
10 000 is not evicted. -/
theorem interpreter_eviction (saveEv : String → String → String)
    (st : AgentState) (result : ToolResult)
    (h : st.last_tool_result = some result) :
    ∃ r, updToolResult (interpreter_node saveEv st).update = some r ∧
      (interpreter_node saveEv st).update.lookup "proposed_tool" =
        some (.vProposed none) ∧
      (interpreter_node saveEv st).goto = .Supervisor ∧
      ((stringifyOutput result.output).length > 10000 →
        r.evicted = some true ∧
        r.pointer = some (saveEv (stringifyOutput result.output) st.thread_id) ∧
        r.output = .str ("[EVICTED size=" ++
          pyStrOfNat (stringifyOutput result.output).length ++
          " chars] Content at " ++
          saveEv (stringifyOutput result.output) st.thread_id) ∧
        r.summary = some ((stringifyOutput result.output).take 500 ++
          "...(truncated)") ∧
        r.rehydration_allowed =
          some (decide ((stringifyOutput result.output).length ≤ 50000))) ∧
      ((stringifyOutput result.output).length ≤ 10000 →
        r.evicted = some false ∧ r.rehydration_allowed = some true ∧
        r.size_chars = some (stringifyOutput result.output).length) := by
  by_cases hgt : (stringifyOutput result.output).length > 10000
  · refine ⟨{ result with
        evicted := some true
        pointer := some (saveEv (stringifyOutput result.output) st.thread_id)
        size_chars := some (stringifyOutput result.output).length
        output := .str ("[EVICTED size=" ++
          pyStrOfNat (stringifyOutput result.output).length ++
          " chars] Content at " ++
          saveEv (stringifyOutput result.output) st.thread_id)
        summary := some ((stringifyOutput result.output).take 500 ++
          "...(truncated)")
        rehydration_allowed :=
          some (decide ((stringifyOutput result.output).length ≤ 50000)) },
      ?_, ?_, ?_, fun _ => ⟨rfl, rfl, rfl, rfl, rfl⟩,
      fun hle => absurd hgt (by omega)⟩ <;>
    simp [interpreter_node, h, updToolResult, if_pos hgt, List.lookup]
  · refine ⟨{ result with
        evicted := some false
        rehydration_allowed := some true
        size_chars := some (stringifyOutput result.output).length },
      ?_, ?_, ?_, fun hgt2 => absurd hgt2 hgt,
      fun _ => ⟨rfl, rfl, rfl⟩⟩ <;>
    simp [interpreter_node, h, updToolResult, if_neg hgt, List.lookup]

/-- Witness for C6: the amended eviction behaviour at a concrete
10 001-character output. -/
theorem interpreter_eviction_witness :
    wEvSt.last_tool_result = some wEvResult ∧
    (∃ r, updToolResult (interpreter_node wSaveEv wEvSt).update = some r ∧
      (interpreter_node wSaveEv wEvSt).update.lookup "proposed_tool" =
        some (.vProposed none) ∧
      (interpreter_node wSaveEv wEvSt).goto = .Supervisor ∧
      ((stringifyOutput wEvResult.output).length > 10000 →
        r.evicted = some true ∧
        r.pointer = some (wSaveEv (stringifyOutput wEvResult.output)
          wEvSt.thread_id) ∧
        r.output = .str ("[EVICTED size=" ++
          pyStrOfNat (stringifyOutput wEvResult.output).length ++
          " chars] Content at " ++
          wSaveEv (stringifyOutput wEvResult.output) wEvSt.thread_id) ∧
        r.summary = some ((stringifyOutput wEvResult.output).take 500 ++
          "...(truncated)") ∧
        r.rehydration_allowed =
          some (decide ((stringifyOutput wEvResult.output).length ≤ 50000))) ∧
      ((stringifyOutput wEvResult.output).length ≤ 10000 →
        r.evicted = some false ∧ r.rehydration_allowed = some true ∧
        r.size_chars = some (stringifyOutput wEvResult.output).length)) :=
  ⟨rfl, interpreter_eviction wSaveEv wEvSt wEvResult rfl⟩

/-- Counterexample for C6 as frozen: at a 10 001-character output the
summary is *not* the first 500 characters — the code appends the marker
`"...(truncated)"`. -/
theorem interpreter_summary_counterexample :
    (updToolResult (interpreter_node wSaveEv wEvSt).update).map
      ToolResult.summary ≠ some (some (bigEvStr.take 500)) := by
  obtain ⟨r, hr, -, -, hgt, -⟩ :=
    interpreter_eviction wSaveEv wEvSt wEvResult rfl
  have hso : stringifyOutput wEvResult.output = bigEvStr := rfl
  have hblen : (stringifyOutput wEvResult.output).length = 10001 := by
    rw [hso]
    exact List.length_replicate 10001 'a'
  obtain ⟨-, -, -, hsum, -⟩ := hgt (by omega)
  rw [hr]
  simp only [Option.map_some']
  intro hEq
  have h1 : r.summary = some (bigEvStr.take 500) := by injection hEq
  rw [hsum, hso] at h1
  have h2 : bigEvStr.take 500 ++ "...(truncated)" = bigEvStr.take 500 := by
    injection h1
  have h3 := congrArg String.length h2
  rw [String.length_append] at h3
  have h4 : ("...(truncated)" : String).length = 14 := rfl
  omega

/-- **C7** (code-bug evidence).  On a successful tool result the
Interpreter's returned update clears `proposed_tool` and routes to
Supervisor, but contains no `step_status` entry at all — `step_status` is
never marked done/failed anywhere, although `supervisor_node`'s done/failed
branches and the spec (§4.2, invariant I4) rely on it. -/
theorem interpreter_no_step_status_update :
    wSuccSt.last_tool_result = some wSuccResult ∧
    wSuccResult.status = "success" ∧
    (interpreter_node wSaveEv wSuccSt).update.lookup "step_status" = none ∧
    (interpreter_node wSaveEv wSuccSt).update =
      [("last_tool_result", .vToolResult { wSuccResult with
          evicted := some false, rehydration_allowed := some true,
          size_chars := some 2 }),
       ("proposed_tool", .vProposed none)] ∧
    (interpreter_node wSaveEv wSuccSt).goto = .Supervisor :=
  ⟨rfl, rfl, rfl, rfl, rfl⟩

theorem takeWhile_append_all {α} (p : α → Bool) {a : List α} (b : List α)
    (ha : ∀ c ∈ a, p c = true) :
    (a ++ b).takeWhile p = a ++ b.takeWhile p := by
  induction a with
  | nil => rfl
  | cons x xs ih =>
    have hx := ha x (List.mem_cons_self _ _)
    simp [List.takeWhile_cons, hx, ih (fun c hc => ha c (List.mem_cons_of_mem _ hc))]

theorem dropWhile_append_all {α} (p : α → Bool) {a : List α} (b : List α)
    (ha : ∀ c ∈ a, p c = true) :
    (a ++ b).dropWhile p = b.dropWhile p := by
  induction a with
  | nil => rfl
  | cons x xs ih =>
    have hx := ha x (List.mem_cons_self _ _)
    simp [List.dropWhile_cons, hx, ih (fun c hc => ha c (List.mem_cons_of_mem _ hc))]

theorem takeWhile_all_neg {α} {p : α → Bool} {l : List α}
    (h : ∀ c ∈ l, p c = false) : l.takeWhile p = [] := by
  cases l with
  | nil => rfl
  | cons x xs => simp [List.takeWhile_cons, h x (List.mem_cons_self _ _)]

theorem dropWhile_all_neg {α} {p : α → Bool} {l : List α}
    (h : ∀ c ∈ l, p c = false) : l.dropWhile p = l := by
  cases l with
  | nil => rfl
  | cons x xs => simp [List.dropWhile_cons, h x (List.mem_cons_self _ _)]

theorem idChar_ws_false {c : Char} (h : idChar c = true) : pyWs c = false := by
  by_cases hw : pyWs c = true
  · exfalso
    simp only [pyWs, Bool.or_eq_true, decide_eq_true_eq] at hw
    rcases hw with rfl | rfl | rfl | rfl | rfl | rfl <;> exact absurd h (by decide)
  · exact Bool.eq_false_iff.mpr hw

theorem tokChar_ws_false {c : Char} (h : tokChar c = true) : pyWs c = false := by
  by_cases hw : pyWs c = true
  · exfalso
    simp only [pyWs, Bool.or_eq_true, decide_eq_true_eq] at hw
    rcases hw with rfl | rfl | rfl | rfl | rfl | rfl <;> exact absurd h (by decide)
  · exact Bool.eq_false_iff.mpr hw

theorem ws_idChar_false {c : Char} (h : pyWs c = true) : idChar c = false := by
  by_cases hi : idChar c = true
  · rw [idChar_ws_false hi] at h
    exact absurd h (by simp)
  · exact Bool.eq_false_iff.mpr hi

theorem ws_tokChar_false {c : Char} (h : pyWs c = true) : tokChar c = false := by
  by_cases hi : tokChar c = true
  · rw [tokChar_ws_false hi] at h
    exact absurd h (by simp)
  · exact Bool.eq_false_iff.mpr hi

theorem dropCaseless_some : ∀ {ks cs rest : List Char},
    dropCaseless ks cs = some rest →
    ∃ kw, cs = kw ++ rest ∧ kw.map Char.toLower = ks.map Char.toLower := by
  intro ks
  induction ks with
  | nil =>
    intro cs rest h
    refine ⟨[], ?_, rfl⟩
    have h2 : some cs = some rest := h
    simpa using h2
  | cons k ks ih =>
    intro cs rest h
    cases cs with
    | nil => exact absurd h (by simp [dropCaseless])
    | cons c cs =>
      rw [dropCaseless] at h
      split at h
      · rename_i heq
        obtain ⟨kw, hkw1, hkw2⟩ := ih h
        exact ⟨c :: kw, by simp [hkw1], by simp [hkw2, heq]⟩
      · exact absurd h (by simp)

theorem dropCaseless_of_caseless : ∀ {ks kw : List Char} (rest : List Char),
    kw.map Char.toLower = ks.map Char.toLower →
    dropCaseless ks (kw ++ rest) = some rest := by
  intro ks
  induction ks with
  | nil =>
    intro kw rest h
    have : kw = [] := by simpa using congrArg List.length h
    rw [this]
    rfl
  | cons k ks ih =>
    intro kw rest h
    cases kw with
    | nil => simp at h
    | cons c cw =>
      simp only [List.map_cons, List.cons.injEq] at h
      rw [List.cons_append, dropCaseless, if_pos h.1]
      exact ih rest h.2

theorem reMatchRechazar_iff (t : String) :
    reMatchRechazar t = true ↔
      ∃ kw w1 idp w2 : List Char,
        t.data = kw ++ w1 ++ idp ++ w2 ∧
        kw.map Char.toLower = "rechazar".data ∧
        w1 ≠ [] ∧ (∀ c ∈ w1, pyWs c = true) ∧
        6 ≤ idp.length ∧ (∀ c ∈ idp, idChar c = true) ∧
        (∀ c ∈ w2, pyWs c = true) := by
  constructor
  · intro h
    unfold reMatchRechazar at h
    split at h
    · exact absurd h Bool.false_ne_true
    · rename_i r1 heq
      obtain ⟨kw, hcs, hkw⟩ := dropCaseless_some heq
      split at h
      · exact absurd h Bool.false_ne_true
      · rename_i hw1
        split at h
        · exact absurd h Bool.false_ne_true
        · rename_i hlen
          refine ⟨kw, r1.takeWhile pyWs, (r1.dropWhile pyWs).takeWhile idChar,
            (r1.dropWhile pyWs).dropWhile idChar, ?_, ?_, ?_, ?_, ?_, ?_, ?_⟩
          · have hsplit : r1 = r1.takeWhile pyWs ++
                ((r1.dropWhile pyWs).takeWhile idChar ++
                 (r1.dropWhile pyWs).dropWhile idChar) := by
              rw [List.takeWhile_append_dropWhile, List.takeWhile_append_dropWhile]
            rw [hcs]
            conv_lhs => rw [hsplit]
            simp [List.append_assoc]
          · rw [hkw]
            decide
          · intro hnil
            exact hw1 (by simp [hnil])
          · exact fun c hc => List.mem_takeWhile_imp hc
          · omega
          · exact fun c hc => List.mem_takeWhile_imp hc
          · exact fun c hc => List.all_eq_true.mp h c hc
  · rintro ⟨kw, w1, idp, w2, hdec, hkw, hw1ne, hw1, hlen, hid, hw2⟩
    obtain ⟨c0, idp', rfl⟩ : ∃ c0 idp', idp = c0 :: idp' := by
      cases idp with
      | nil => simp at hlen
      | cons a b => exact ⟨a, b, rfl⟩
    unfold reMatchRechazar
    have hdc : dropCaseless "RECHAZAR".data t.data =
        some (w1 ++ (c0 :: idp') ++ w2) := by
      have ht : t.data = kw ++ (w1 ++ (c0 :: idp') ++ w2) := by
        rw [hdec]
        simp [List.append_assoc]
      rw [ht]
      exact dropCaseless_of_caseless _ (by rw [hkw]; decide)
    rw [hdc]
    have hc0 : idChar c0 = true := hid c0 (by simp)
    have ht1 : (w1 ++ (c0 :: idp') ++ w2).takeWhile pyWs = w1 := by
      rw [List.append_assoc, takeWhile_append_all pyWs _ hw1]
      simp [List.takeWhile_cons, idChar_ws_false hc0]
    have ht2 : (w1 ++ (c0 :: idp') ++ w2).dropWhile pyWs = (c0 :: idp') ++ w2 := by
      rw [List.append_assoc, dropWhile_append_all pyWs _ hw1]
      simp [List.dropWhile_cons, idChar_ws_false hc0]
    have ht3 : ((c0 :: idp') ++ w2).takeWhile idChar = c0 :: idp' := by
      rw [takeWhile_append_all idChar _ hid,
        takeWhile_all_neg (fun c hc => ws_idChar_false (hw2 c hc))]
      simp
    have ht4 : ((c0 :: idp') ++ w2).dropWhile idChar = w2 := by
      rw [dropWhile_append_all idChar _ hid]
      exact dropWhile_all_neg (fun c hc => ws_idChar_false (hw2 c hc))
    simp only [ht1, ht2, ht3, ht4]
    rw [if_neg (by simp [hw1ne]),
      if_neg (by simp only [List.length_cons] at hlen ⊢; omega)]
    exact List.all_eq_true.mpr hw2

theorem reMatchAprobar_iff (t : String) :
    reMatchAprobar t = true ↔
      ∃ kw w1 idp w2 tokp w3 : List Char,
        t.data = kw ++ w1 ++ idp ++ w2 ++ tokp ++ w3 ∧
        kw.map Char.toLower = "aprobar".data ∧
        w1 ≠ [] ∧ (∀ c ∈ w1, pyWs c = true) ∧
        6 ≤ idp.length ∧ (∀ c ∈ idp, idChar c = true) ∧
        w2 ≠ [] ∧ (∀ c ∈ w2, pyWs c = true) ∧
        10 ≤ tokp.length ∧ (∀ c ∈ tokp, tokChar c = true) ∧
        (∀ c ∈ w3, pyWs c = true) := by
  constructor
  · intro h
    unfold reMatchAprobar at h
    split at h
    · exact absurd h Bool.false_ne_true
    · rename_i r1 heq
      obtain ⟨kw, hcs, hkw⟩ := dropCaseless_some heq
      split at h
      · exact absurd h Bool.false_ne_true
      · rename_i hw1
        split at h
        · exact absurd h Bool.false_ne_true
        · rename_i hlen
          split at h
          · exact absurd h Bool.false_ne_true
          · rename_i hw2e
            split at h
            · exact absurd h Bool.false_ne_true
            · rename_i htlen
              refine ⟨kw, r1.takeWhile pyWs,
                (r1.dropWhile pyWs).takeWhile idChar,
                (((r1.dropWhile pyWs).dropWhile idChar).takeWhile pyWs),
                ((((r1.dropWhile pyWs).dropWhile idChar).dropWhile pyWs).takeWhile tokChar),
                ((((r1.dropWhile pyWs).dropWhile idChar).dropWhile pyWs).dropWhile tokChar),
                ?_, ?_, ?_, ?_, ?_, ?_, ?_, ?_, ?_, ?_, ?_⟩
              · have hsplit : r1 = r1.takeWhile pyWs ++
                    ((r1.dropWhile pyWs).takeWhile idChar ++
                     (((r1.dropWhile pyWs).dropWhile idChar).takeWhile pyWs ++
                      ((((r1.dropWhile pyWs).dropWhile idChar).dropWhile pyWs).takeWhile tokChar ++
                       (((r1.dropWhile pyWs).dropWhile idChar).dropWhile pyWs).dropWhile tokChar))) := by
                  rw [List.takeWhile_append_dropWhile, List.takeWhile_append_dropWhile,
                    List.takeWhile_append_dropWhile, List.takeWhile_append_dropWhile]
                rw [hcs]
                conv_lhs => rw [hsplit]
                simp [List.append_assoc]
              · rw [hkw]
                decide
              · intro hnil
                exact hw1 (by simp [hnil])
              · exact fun c hc => List.mem_takeWhile_imp hc
              · omega
              · exact fun c hc => List.mem_takeWhile_imp hc
              · intro hnil
                exact hw2e (by simp [hnil])
              · exact fun c hc => List.mem_takeWhile_imp hc
              · omega
              · exact fun c hc => List.mem_takeWhile_imp hc
              · exact fun c hc => List.all_eq_true.mp h c hc
  · rintro ⟨kw, w1, idp, w2, tokp, w3, hdec, hkw, hw1ne, hw1, hlen, hid,
      hw2ne, hw2, htlen, htok, hw3⟩
    obtain ⟨c0, idp', rfl⟩ : ∃ c0 idp', idp = c0 :: idp' := by
      cases idp with
      | nil => simp at hlen
      | cons a b => exact ⟨a, b, rfl⟩
    obtain ⟨d0, tokp', rfl⟩ : ∃ d0 tokp', tokp = d0 :: tokp' := by
      cases tokp with
      | nil => simp at htlen
      | cons a b => exact ⟨a, b, rfl⟩
    unfold reMatchAprobar
    have hdc : dropCaseless "APROBAR".data t.data =
        some (w1 ++ (c0 :: idp') ++ w2 ++ (d0 :: tokp') ++ w3) := by
      have ht : t.data = kw ++ (w1 ++ (c0 :: idp') ++ w2 ++ (d0 :: tokp') ++ w3) := by
        rw [hdec]
        simp [List.append_assoc]
      rw [ht]
      exact dropCaseless_of_caseless _ (by rw [hkw]; decide)
    rw [hdc]
    have hc0 : idChar c0 = true := hid c0 (by simp)
    have hd0 : tokChar d0 = true := htok d0 (by simp)
    have hrest1 : w1 ++ (c0 :: idp') ++ w2 ++ (d0 :: tokp') ++ w3 =
        w1 ++ ((c0 :: idp') ++ (w2 ++ ((d0 :: tokp') ++ w3))) := by
      simp [List.append_assoc]
    have ht1 : (w1 ++ (c0 :: idp') ++ w2 ++ (d0 :: tokp') ++ w3).takeWhile pyWs = w1 := by
      rw [hrest1, takeWhile_append_all pyWs _ hw1]
      simp [List.takeWhile_cons, idChar_ws_false hc0]
    have ht2 : (w1 ++ (c0 :: idp') ++ w2 ++ (d0 :: tokp') ++ w3).dropWhile pyWs =
        (c0 :: idp') ++ (w2 ++ ((d0 :: tokp') ++ w3)) := by
      rw [hrest1, dropWhile_append_all pyWs _ hw1]
      simp [List.dropWhile_cons, idChar_ws_false hc0]
    have ht3 : ((c0 :: idp') ++ (w2 ++ ((d0 :: tokp') ++ w3))).takeWhile idChar =
        c0 :: idp' := by
      rw [takeWhile_append_all idChar _ hid]
      have hw2head : (w2 ++ ((d0 :: tokp') ++ w3)).takeWhile idChar = [] := by
        obtain ⟨e0, w2', rfl⟩ : ∃ e0 w2', w2 = e0 :: w2' := by
          cases w2 with
          | nil => exact absurd rfl hw2ne
          | cons a b => exact ⟨a, b, rfl⟩
        simp [List.takeWhile_cons, ws_idChar_false (hw2 e0 (by simp))]
      rw [hw2head, List.append_nil]
    have ht4 : ((c0 :: idp') ++ (w2 ++ ((d0 :: tokp') ++ w3))).dropWhile idChar =
        w2 ++ ((d0 :: tokp') ++ w3) := by
      rw [dropWhile_append_all idChar _ hid]
      obtain ⟨e0, w2', rfl⟩ : ∃ e0 w2', w2 = e0 :: w2' := by
        cases w2 with
        | nil => exact absurd rfl hw2ne
        | cons a b => exact ⟨a, b, rfl⟩
      simp [List.dropWhile_cons, ws_idChar_false (hw2 e0 (by simp))]
    have ht5 : (w2 ++ ((d0 :: tokp') ++ w3)).takeWhile pyWs = w2 := by
      rw [takeWhile_append_all pyWs _ hw2]
      simp [List.takeWhile_cons, tokChar_ws_false hd0]
    have ht6 : (w2 ++ ((d0 :: tokp') ++ w3)).dropWhile pyWs = (d0 :: tokp') ++ w3 := by
      rw [dropWhile_append_all pyWs _ hw2]
      simp [List.dropWhile_cons, tokChar_ws_false hd0]
    have ht7 : ((d0 :: tokp') ++ w3).takeWhile tokChar = d0 :: tokp' := by
      rw [takeWhile_append_all tokChar _ htok,
        takeWhile_all_neg (fun c hc => ws_tokChar_false (hw3 c hc))]
      simp
    have ht8 : ((d0 :: tokp') ++ w3).dropWhile tokChar = w3 := by
      rw [dropWhile_append_all tokChar _ htok]
      exact dropWhile_all_neg (fun c hc => ws_tokChar_false (hw3 c hc))
    simp only [ht1, ht2, ht3, ht4, ht5, ht6, ht7, ht8]
    rw [if_neg (by simp [hw1ne]),
      if_neg (by simp only [List.length_cons] at hlen ⊢; omega),
      if_neg (by simp [hw2ne]),
      if_neg (by simp only [List.length_cons] at htlen ⊢; omega)]
    exact List.all_eq_true.mpr hw3

/-- **C8** (amended).  The user-visible approval grammar parsed by Router
and ApprovalHandler accepts exactly the messages `APROBAR <id> <token>`
(id of at least 6 characters from `[A-Za-z0-9_-]`, token of at least 10
characters from `[A-Za-z0-9._-]`) and `RECHAZAR <id>`, case-insensitively
after trimming; while `awaiting_approval`, a last user message matching this
grammar routes to ApprovalHandler and any other message routes to
Supervisor. -/
theorem router_approval_grammar (st : AgentState) (lastMsg : String)
    (happ : st.awaiting_approval = true)
    (hmsg : st.messages.getLast? = some (.str lastMsg)) :
    ((reMatchRechazar (pyStrip lastMsg) = true ∨
      reMatchAprobar (pyStrip lastMsg) = true) ↔ approvalGrammar lastMsg) ∧
    (approvalGrammar lastMsg → router_node st = ⟨[], .ApprovalHandler⟩) ∧
    (¬ approvalGrammar lastMsg → router_node st = ⟨[], .Supervisor⟩) := by
  have hiff : (reMatchRechazar (pyStrip lastMsg) = true ∨
      reMatchAprobar (pyStrip lastMsg) = true) ↔ approvalGrammar lastMsg := by
    unfold approvalGrammar
    rw [reMatchRechazar_iff, reMatchAprobar_iff]
  refine ⟨hiff, ?_, ?_⟩
  · intro hg
    have hd := hiff.mpr hg
    simp [router_node, happ, hmsg, hd]
  · intro hg
    have h1 : ¬ (reMatchRechazar (pyStrip lastMsg) = true ∨
        reMatchAprobar (pyStrip lastMsg) = true) := fun d => hg (hiff.mp d)
    simp [router_node, happ, hmsg, h1]

/-- Counterexample for C8 as frozen: the code's keywords are `APROBAR` /
`RECHAZAR`; the English forms `APPROVE <id> <token>` and `REJECT <id>` are
*not* accepted and route to Supervisor, not ApprovalHandler. -/
theorem router_keyword_counterexample :
    reMatchAprobar (pyStrip "APPROVE abcdef abcde12345") = false ∧
    reMatchRechazar (pyStrip "APPROVE abcdef abcde12345") = false ∧
    reMatchRechazar (pyStrip "REJECT abcdef") = false ∧
    reMatchAprobar (pyStrip "REJECT abcdef") = false ∧
    reMatchAprobar (pyStrip "APROBAR abcdef abcde12345") = true ∧
    reMatchRechazar (pyStrip "RECHAZAR abcdef") = true ∧
    router_node { emptyAgentState with
      awaiting_approval := true
      messages := [.str "APPROVE abcdef abcde12345"] } = ⟨[], .Supervisor⟩ ∧
    router_node wApSt = ⟨[], .ApprovalHandler⟩ :=
  ⟨rfl, rfl, rfl, rfl, rfl, rfl, rfl, rfl⟩

/-- Witness for C8: a concrete conforming `APROBAR` message while awaiting
approval. -/
theorem router_approval_grammar_witness :
    wApSt.awaiting_approval = true ∧
    wApSt.messages.getLast? = some (.str "APROBAR abcdef abcde12345") ∧
    (((reMatchRechazar (pyStrip "APROBAR abcdef abcde12345") = true ∨
       reMatchAprobar (pyStrip "APROBAR abcdef abcde12345") = true) ↔
      approvalGrammar "APROBAR abcdef abcde12345") ∧
     (approvalGrammar "APROBAR abcdef abcde12345" →
       router_node wApSt = ⟨[], .ApprovalHandler⟩) ∧
     (¬ approvalGrammar "APROBAR abcdef abcde12345" →
       router_node wApSt = ⟨[], .Supervisor⟩)) :=
  ⟨rfl, by simp [wApSt, emptyAgentState],
    router_approval_grammar wApSt "APROBAR abcdef abcde12345" rfl
      (by simp [wApSt, emptyAgentState])⟩

theorem chainFrom_append (sha : String → String) :
    ∀ (l : List AuditRecord) (prev : String) (r : AuditRecord),
    chainFrom sha prev l → r.prev_hash = endHash prev l →
    r.integrity_hash = sha (recordDump { r with integrity_hash := "" }) →
    chainFrom sha prev (l ++ [r]) ∧
      endHash prev (l ++ [r]) = r.integrity_hash := by
  intro l
  induction l with
  | nil =>
    intro prev r hc hp hi
    exact ⟨⟨hp, hi, trivial⟩, rfl⟩
  | cons a l ih =>
    intro prev r hc hp hi
    obtain ⟨h1, h2, h3⟩ := hc
    obtain ⟨hc2, he2⟩ := ih a.integrity_hash r h3 hp hi
    exact ⟨⟨h1, h2, hc2⟩, he2⟩

theorem log_event_inv (sha : String → String) (st : AuditState)
    (e : AuditEvent)
    (h : chainFrom sha genesisHash st.log ∧
      st.last_hash = endHash genesisHash st.log) :
    chainFrom sha genesisHash (log_event sha st e).log ∧
      (log_event sha st e).last_hash =
        endHash genesisHash (log_event sha st e).log := by
  obtain ⟨hc, hl⟩ := h
  obtain ⟨hc2, he2⟩ := chainFrom_append sha st.log genesisHash
    { ts := e.ts, event := e.event_type, details := e.details,
      decision := e.decision, risk := e.risk_level,
      prev_hash := st.last_hash,
      integrity_hash := sha (recordDump
        { ts := e.ts, event := e.event_type, details := e.details,
          decision := e.decision, risk := e.risk_level,
          prev_hash := st.last_hash, integrity_hash := "" }) }
    hc hl rfl
  exact ⟨hc2, he2.symm⟩

theorem runAudit_inv (sha : String → String) (evs : List AuditEvent) :
    ∀ st : AuditState,
    chainFrom sha genesisHash st.log ∧
      st.last_hash = endHash genesisHash st.log →
    chainFrom sha genesisHash (runAudit sha st evs).log ∧
      (runAudit sha st evs).last_hash =
        endHash genesisHash (runAudit sha st evs).log := by
  induction evs with
  | nil => exact fun st h => h
  | cons e es ih => exact fun st h => ih _ (log_event_inv sha st e h)

/-- **C9.**  Every record appended by the audit logger forms a hash chain:
the record's `prev_hash` equals the `integrity_hash` of the previously
appended record (64 zero hex digits for the first record), and its
`integrity_hash` equals the SHA-256 of the record serialized as sorted-key
JSON with the `integrity_hash` field set to the empty string — for every
sequence of `log_event` calls starting from a fresh logger. -/
theorem audit_chain (sha : String → String) (evs : List AuditEvent) :
    chainFrom sha genesisHash (runAudit sha auditInit evs).log ∧
    (runAudit sha auditInit evs).last_hash =
      endHash genesisHash (runAudit sha auditInit evs).log :=
  runAudit_inv sha evs auditInit ⟨trivial, rfl⟩

end Phylactery
